import Mathlib

/-
  Verification of the topic-isolated conversation cache manager
  (cache-handlers): shallow embedding of the session state, the persisted
  topic manifest, the permission gate and the counter-driven auto-update
  trigger, together with theorems settling the specification claims.

  Modelling conventions:
  * JS `Record` / `Map` objects are association lists with JS assignment
    semantics (`setKey` replaces in place, else appends).
  * Timestamps are abstract integers (milliseconds); `Date.toISOString`
    is modelled by `isoStr`.
  * JS string truthiness (empty string is falsy) is modelled by `truthy`.
  * The injected file-I/O collaborator is a finite file-system record;
    write failures are modelled by a set of failing paths.
  * The on-disk manifest JSON document is abstracted to its parse result
    (`ManifestFile`); a separate text-level model (`loadSessionManifestText`)
    keeps the raw line structure for the 1000-line read-limit analysis.
-/

/-- JS `Record`/`Map` assignment: if the key exists, replace its value in
place; otherwise append the binding at the end (JS insertion order). -/
def setKey {α : Type} (l : List (String × α)) (k : String) (v : α) :
    List (String × α) :=
  if l.any (fun p => p.1 == k) then
    l.map (fun p => if p.1 == k then (k, v) else p)
  else l ++ [(k, v)]

/-- JS property / `Map.get` lookup. -/
def lookupKey {α : Type} (l : List (String × α)) (k : String) : Option α :=
  (l.find? (fun p => p.1 == k)).map (fun p => p.2)

/-- JS `delete rec[k]` / `Map.delete`. -/
def eraseKey {α : Type} (l : List (String × α)) (k : String) :
    List (String × α) :=
  l.filter (fun p => p.1 != k)

/-- JS `k in rec` / `Map.has`. -/
def hasKey {α : Type} (l : List (String × α)) (k : String) : Bool :=
  l.any (fun p => p.1 == k)

/-- JS string truthiness for optional string arguments: `undefined` and the
empty string are both falsy. -/
def truthy : Option String → Option String
  | none => none
  | some s => if s.isEmpty then none else some s

/-- Model of `path.join` for the two-argument uses in the handlers. -/
def joinPath (a b : String) : String := a ++ "/" ++ b

/-- Model of `Date.toISOString()`: abstract integer timestamps rendered to
text. -/
def isoStr (t : Int) : String := toString t

/-- One record of `SessionManifest.activeSessions` / `archivedSessions`
(`createdAt` / `lastUsed` / `archivedAt` ISO strings become integers). -/
structure SessionEntry where
  createdAt : Int
  lastUsed : Int
  projectName : String
  autoCleanupAfterDays : Option Int
  sessionOnly : Bool
  archivedAt : Option Int
deriving Repr, DecidableEq

/-- The persisted session manifest (`session_manifest.json`):
`archivedSessions` is optional exactly as in the interface. -/
structure SessionManifest where
  activeSessions : List (String × SessionEntry)
  archivedSessions : Option (List (String × SessionEntry))
  manifestVersion : String
deriving Repr, DecidableEq

/-- The fresh manifest returned by `loadSessionManifest` when the file is
missing or unreadable. -/
def defaultManifest : SessionManifest :=
  { activeSessions := []
    archivedSessions := none
    manifestVersion := "2.0.0" }

/-- The archived map, defaulting to empty when the optional field is
absent. -/
def archivedOf (m : SessionManifest) : List (String × SessionEntry) :=
  m.archivedSessions.getD []

/-- On-disk state of a manifest file, abstracted to its JSON parse result:
`corrupt` stands for any content `JSON.parse` rejects. -/
inductive ManifestFile
  | corrupt : ManifestFile
  | parsed : SessionManifest → ManifestFile
deriving Repr, DecidableEq

/-- Write mode of the injected `writeFile` collaborator. -/
inductive WriteMode
  | rewrite : WriteMode
  | append : WriteMode
deriving Repr, DecidableEq

/-- The file-system collaborator: existing directories, markdown file
contents, manifest files keyed by full path, and the set of paths whose
writes fail. -/
structure FS where
  dirs : List String
  files : List (String × String)
  manifests : List (String × ManifestFile)
  failWrites : List String
deriving Repr, DecidableEq

/-- Model of `existsSync`. -/
def FS.existsPath (fs : FS) (p : String) : Bool :=
  fs.dirs.contains p || hasKey fs.files p || hasKey fs.manifests p

/-- Model of `createDirectory` (idempotent). -/
def FS.createDir (fs : FS) (p : String) : FS :=
  if fs.dirs.contains p then fs else { fs with dirs := fs.dirs ++ [p] }

/-- Model of `writeFile(path, content, mode)`; a path listed in
`failWrites` makes the write throw. -/
def FS.writeFileE (fs : FS) (p content : String) (mode : WriteMode) :
    Except String FS :=
  if fs.failWrites.contains p then
    Except.error ("Failed to write " ++ p)
  else
    match mode with
    | WriteMode.rewrite =>
        Except.ok { fs with files := setKey fs.files p content }
    | WriteMode.append =>
        match lookupKey fs.files p with
        | some old =>
            Except.ok { fs with files := setKey fs.files p (old ++ content) }
        | none =>
            Except.ok { fs with files := setKey fs.files p content }

/-- Current content of a markdown file (empty when absent). -/
def fileContent (fs : FS) (p : String) : String :=
  (lookupKey fs.files p).getD ""

/-- Runs a sequence of writes in order, stopping at the first failure and
returning the error message together with the file system reached so far
(mirrors `await writeFile(...)` statements under a surrounding
`try`/`catch`). -/
def writeSeq (fs : FS) : List (String × String × WriteMode) →
    Option String × FS
  | [] => (none, fs)
  | (p, c, m) :: rest =>
    match fs.writeFileE p c m with
    | Except.error e => (some e, fs)
    | Except.ok fs2 => writeSeq fs2 rest

/-- The in-memory cache state singleton (`cacheState`). -/
structure CacheState where
  isInitialized : Bool
  cacheDir : String
  currentTopic : Option String
  autoUpdateEnabled : Bool
  toolCallCount : Nat
  updateInterval : Nat
  lastUpdate : Option Int
  activeTopic : Option String
  hasCreatePermission : Bool
  permissionGrantedAt : Option Int
  topicAutoUpdateSettings : List (String × Bool)
deriving Repr, DecidableEq

/-- The initial value of the global cache state object. -/
def initialCacheState : CacheState :=
  { isInitialized := false
    cacheDir := "C:\\Claude_Session"
    currentTopic := none
    autoUpdateEnabled := false
    toolCallCount := 0
    updateInterval := 10
    lastUpdate := none
    activeTopic := none
    hasCreatePermission := false
    permissionGrantedAt := none
    topicAutoUpdateSettings := [] }

/-- `ServerResult`: ordinary text content versus `createErrorResponse`. -/
inductive ServerResult
  | ok : String → ServerResult
  | err : String → ServerResult
deriving Repr, DecidableEq

/-- Whether a result is an error response. -/
def ServerResult.isErr : ServerResult → Bool
  | ServerResult.ok _ => false
  | ServerResult.err _ => true

/-- `getCacheDirectory`: no topic (or empty topic, which is falsy) keeps
the base directory; otherwise the topic gets an isolated subdirectory. -/
def getCacheDirectory (baseCacheDir : String) (topic : Option String) :
    String :=
  match topic with
  | none => baseCacheDir
  | some t => if t.isEmpty then baseCacheDir else joinPath baseCacheDir t

/-- Abridged text of the permission-denied guidance returned by
`checkCreatePermission` (the full remediation text is elided; only its
presence matters to the handlers). -/
def permissionRequiredText : String :=
  "Permission Required to Create Cache Directory: set confirmCreate and understoodGrowth to true."

/-- `checkCreatePermission`: returns the block message unless both consent
flags are true. -/
def checkCreatePermission (confirmCreate understoodGrowth : Bool) :
    Option String :=
  if !confirmCreate || !understoodGrowth then some permissionRequiredText
  else none

/-- Path of `session_manifest.json` under a base directory. -/
def manifestPath (baseCacheDir : String) : String :=
  joinPath baseCacheDir "session_manifest.json"

/-- `loadSessionManifest`: missing or unparseable file yields the fresh
default manifest (corruption is recovered silently). -/
def loadSessionManifest (fs : FS) (baseCacheDir : String) :
    SessionManifest :=
  match lookupKey fs.manifests (manifestPath baseCacheDir) with
  | some (ManifestFile.parsed m) => m
  | some ManifestFile.corrupt => defaultManifest
  | none => defaultManifest

/-- `saveSessionManifest`: overwrites the manifest file; a write failure is
caught, logged with `console.warn`, and swallowed, leaving the file
unchanged. -/
def saveSessionManifest (fs : FS) (baseCacheDir : String)
    (m : SessionManifest) : FS :=
  if fs.failWrites.contains (manifestPath baseCacheDir) then fs
  else
    { fs with
      manifests :=
        setKey fs.manifests (manifestPath baseCacheDir)
          (ManifestFile.parsed m) }

/-- Parsed arguments of `init_cache` (schema defaults already applied). -/
structure InitArgs where
  cacheDir : String
  projectName : Option String
  topic : Option String
  confirmCreate : Bool
  understoodGrowth : Bool
  sessionOnly : Bool
deriving Repr, DecidableEq

/-- Parsed arguments of `update_cache`. -/
structure UpdateArgs where
  conversationSummary : String
  projectUpdate : Option String
  decisionsUpdate : Option String
  nextStepsUpdate : Option String
  topic : Option String
deriving Repr, DecidableEq

/-- Parsed arguments of `load_cache`. -/
structure LoadArgs where
  cacheDir : String
  topic : Option String
  useLegacy : Bool
deriving Repr, DecidableEq

/-- Parsed arguments of `auto_update_cache`. -/
structure AutoUpdateArgs where
  enable : Bool
  updateInterval : Nat
  topic : Option String
deriving Repr, DecidableEq

/-- Parsed arguments of `archive_cache`. -/
structure ArchiveArgs where
  topic : String
  cacheDir : String
  confirmArchive : Bool
deriving Repr, DecidableEq

/-- Parsed arguments of `cleanup_cache`. -/
structure CleanupArgs where
  cacheDir : String
  cleanupAfterDays : Int
  maxSessions : Int
  confirmCleanup : Bool
deriving Repr, DecidableEq

/-- Topic tag appended to update section headers. -/
def topicTag : Option String → String
  | some t => " (Topic: " ++ t ++ ")"
  | none => ""

/-- A timestamped section appended by `update_cache` to one of the four
markdown artifacts. -/
def appendEntry (header ts : String) (topic : Option String)
    (body : String) : String :=
  "\n\n## " ++ header ++ ": " ++ ts ++ topicTag topic ++ "\n" ++ body ++ "\n\n"

/-- Abridged model of the initial `conversation_log.md` template. -/
def conversationLogInit (topic : Option String) (pn ts dir : String) :
    String :=
  "# Claude Session Conversation Log" ++ topicTag topic ++ " Initialized: "
    ++ ts ++ " Project Context: " ++ pn ++ " Directory: " ++ dir

/-- Abridged model of the initial `current_project_state.md` template. -/
def projectStateInit (topic : Option String) (pn ts : String)
    (sessionOnly : Bool) : String :=
  "# Project State" ++ topicTag topic ++ " Project Name: " ++ pn
    ++ " Initialization Date: " ++ ts
    ++ (if sessionOnly then " Temporary Session Cache" else " Persistent Project Memory")

/-- Abridged model of the initial `decisions_made.md` template. -/
def decisionsInit (topic : Option String) (ts dir : String) : String :=
  "# Key Decisions and Approaches" ++ topicTag topic ++ " Date: " ++ ts
    ++ " Location: " ++ dir

/-- Abridged model of the initial `next_steps.md` template. -/
def nextStepsInit (topic : Option String) : String :=
  "# Next Steps - Immediate Actions" ++ topicTag topic

/-- Abridged model of the initial `cache_protocol.md` template. -/
def protocolInit (topic : Option String) (ts dir : String) : String :=
  "# Cache System Protocol" ++ topicTag topic ++ " Date: " ++ ts
    ++ " Directory: " ++ dir

/-- The default project name used by `init_cache`
(`projectName || (topic ? topic + " Project" : "Unknown Project")`). -/
def initProjectName (projectName topic : Option String) : String :=
  match truthy projectName with
  | some pn => pn
  | none =>
    match topic with
    | some t => t ++ " Project"
    | none => "Unknown Project"

/-- The manifest upsert performed by `init_cache` when a topic is given:
the entry is written into `activeSessions` (note: the topic is *not*
removed from `archivedSessions` if it is present there). -/
def initManifestUpdate (fs : FS) (baseCacheDir : String)
    (topic : Option String) (defaultProjectName : String)
    (sessionOnly : Bool) (now : Int) : FS :=
  match topic with
  | some t =>
    let manifest := loadSessionManifest fs baseCacheDir
    let entry : SessionEntry :=
      { createdAt := now
        lastUsed := now
        projectName := defaultProjectName
        autoCleanupAfterDays := if sessionOnly then some 7 else none
        sessionOnly := sessionOnly
        archivedAt := none }
    saveSessionManifest fs baseCacheDir
      { manifest with
        activeSessions := setKey manifest.activeSessions t entry }
  | none => fs

/-- The body of `handleInitCache` after the permission gate: directory
creation, manifest upsert, the five template writes, and the state update.
The two consent flags are not used past the gate, so the body only takes
the remaining arguments. -/
def initCacheBody (baseCacheDir : String) (projectName topic : Option String)
    (sessionOnly : Bool) (s : CacheState) (fs : FS) (now : Int) :
    ServerResult × CacheState × FS :=
  let actualCacheDir := getCacheDirectory baseCacheDir topic
  let fs1 := fs.createDir actualCacheDir
  let fs2 :=
    if topic.isSome && !(fs1.existsPath baseCacheDir) then
      fs1.createDir baseCacheDir
    else fs1
  let ts := isoStr now
  let defaultProjectName := initProjectName projectName topic
  let fs3 := initManifestUpdate fs2 baseCacheDir topic defaultProjectName
    sessionOnly now
  let writes : List (String × String × WriteMode) :=
    [ (joinPath actualCacheDir "conversation_log.md",
       conversationLogInit topic defaultProjectName ts actualCacheDir,
       WriteMode.rewrite),
      (joinPath actualCacheDir "current_project_state.md",
       projectStateInit topic defaultProjectName ts sessionOnly,
       WriteMode.rewrite),
      (joinPath actualCacheDir "decisions_made.md",
       decisionsInit topic ts actualCacheDir, WriteMode.rewrite),
      (joinPath actualCacheDir "next_steps.md",
       nextStepsInit topic, WriteMode.rewrite),
      (joinPath actualCacheDir "cache_protocol.md",
       protocolInit topic ts actualCacheDir, WriteMode.rewrite) ]
  let wres := writeSeq fs3 writes
  match wres.1 with
  | some e =>
    (ServerResult.err ("Cache initialization failed: " ++ e), s, wres.2)
  | none =>
    let s2 : CacheState :=
      { s with
        isInitialized := true
        cacheDir := baseCacheDir
        currentTopic := topic
        activeTopic := topic
        hasCreatePermission := true
        permissionGrantedAt := some now
        lastUpdate := some now }
    (ServerResult.ok "Cache System Initialized Successfully", s2, wres.2)

/-- `handleInitCache`: resolves the target directory, consults the
permission gate only when the directory does not exist yet, then runs the
initialization body. The optional topic is normalized once through JS
string truthiness. -/
def handleInitCache (args : InitArgs) (s : CacheState) (fs : FS)
    (now : Int) : ServerResult × CacheState × FS :=
  let topic := truthy args.topic
  let actualCacheDir := getCacheDirectory args.cacheDir topic
  let directoryExists := fs.existsPath actualCacheDir
  if !directoryExists then
    match checkCreatePermission args.confirmCreate args.understoodGrowth with
    | some msg => (ServerResult.ok msg, s, fs)
    | none =>
      initCacheBody args.cacheDir args.projectName topic args.sessionOnly
        s fs now
  else
    initCacheBody args.cacheDir args.projectName topic args.sessionOnly
      s fs now

/-- Target-topic resolution shared by `update_cache` and
`auto_update_cache`: explicit argument first, else the currently active
topic (JS truthiness on both). -/
def resolveTarget (arg activeTopic : Option String) : Option String :=
  match truthy arg with
  | some t => some t
  | none => truthy activeTopic

/-- The topic an `update_cache` call resolves to. -/
def updTarget (args : UpdateArgs) (s : CacheState) : Option String :=
  resolveTarget args.topic s.activeTopic

/-- The directory an `update_cache` call resolves to. -/
def updDir (args : UpdateArgs) (s : CacheState) : String :=
  getCacheDirectory s.cacheDir (updTarget args s)

/-- The append operations performed by one `update_cache` call: the
conversation-log section always, the other three sections exactly when the
corresponding optional input is truthy (non-empty). -/
def updateWrites (args : UpdateArgs) (targetCacheDir : String)
    (targetTopic : Option String) (ts : String) :
    List (String × String × WriteMode) :=
  [ (joinPath targetCacheDir "conversation_log.md",
     appendEntry "Update" ts targetTopic args.conversationSummary,
     WriteMode.append) ]
  ++ (match truthy args.projectUpdate with
      | some u =>
        [ (joinPath targetCacheDir "current_project_state.md",
           appendEntry "Project Update" ts targetTopic u,
           WriteMode.append) ]
      | none => [])
  ++ (match truthy args.decisionsUpdate with
      | some u =>
        [ (joinPath targetCacheDir "decisions_made.md",
           appendEntry "Decision Update" ts targetTopic u,
           WriteMode.append) ]
      | none => [])
  ++ (match truthy args.nextStepsUpdate with
      | some u =>
        [ (joinPath targetCacheDir "next_steps.md",
           appendEntry "Next Steps Update" ts targetTopic u,
           WriteMode.append) ]
      | none => [])

/-- The manifest `lastUsed` touch performed by `update_cache` when a
target topic exists and has an entry in `activeSessions` (errors inside
this block are caught and logged only, and `saveSessionManifest` itself
swallows write failures, so the touch is total). -/
def touchManifest (fs : FS) (base : String) (targetTopic : Option String)
    (now : Int) : FS :=
  match targetTopic with
  | some t =>
    let manifest := loadSessionManifest fs base
    match lookupKey manifest.activeSessions t with
    | some info =>
      saveSessionManifest fs base
        { manifest with
          activeSessions :=
            setKey manifest.activeSessions t { info with lastUsed := now } }
    | none => fs
  | none => fs

/-- `handleUpdateCache`: resolves the target, validates initialization and
directory existence (writing nothing on either error), appends the
conversation-log section plus the optional sections, touches the manifest
`lastUsed`, then updates `lastUpdate` and `activeTopic`. -/
def handleUpdateCache (args : UpdateArgs) (s : CacheState) (fs : FS)
    (now : Int) : ServerResult × CacheState × FS :=
  if !s.isInitialized then
    (ServerResult.err "Cache system not initialized. Use init_cache first.",
     s, fs)
  else if !(fs.existsPath (updDir args s)) then
    (ServerResult.err ("Cache directory not found: " ++ updDir args s),
     s, fs)
  else
    match writeSeq fs (updateWrites args (updDir args s) (updTarget args s)
        (isoStr now)) with
    | (some e, fsE) =>
      (ServerResult.err ("Cache update failed: " ++ e), s, fsE)
    | (none, fs2) =>
      let s2 : CacheState :=
        { s with
          lastUpdate := some now
          activeTopic :=
            match updTarget args s with
            | some t => some t
            | none => s.activeTopic }
      (ServerResult.ok "Cache Updated Successfully", s2,
       touchManifest fs2 s.cacheDir (updTarget args s) now)

/-- The context text assembled by `load_cache` from the four artifacts
(abridged: concatenation of the file contents in loading order). -/
def loadedContextText (fs : FS) (targetCacheDir : String) : String :=
  String.join
    ([ "conversation_log.md", "current_project_state.md",
       "decisions_made.md", "next_steps.md" ].map
      (fun f => fileContent fs (joinPath targetCacheDir f)))

/-- `handleLoadCache`: with no topic and no explicit legacy flag it only
returns discovery guidance (no state change); otherwise it validates the
directory, reads the four artifacts, and on success records the loaded
topic as active and marks the system initialized. -/
def handleLoadCache (args : LoadArgs) (s : CacheState) (fs : FS) :
    ServerResult × CacheState × FS :=
  let topic := truthy args.topic
  if topic.isNone && !args.useLegacy then
    let manifest := loadSessionManifest fs args.cacheDir
    if manifest.activeSessions.length > 0 then
      (ServerResult.ok "Multiple Topics Available: please specify which topic to load",
       s, fs)
    else if fs.existsPath args.cacheDir then
      (ServerResult.ok "Legacy Cache Mode Detected: consider topic-based caches",
       s, fs)
    else
      (ServerResult.ok "No Cache Found: set up persistent memory with init_cache",
       s, fs)
  else if args.useLegacy && topic.isNone && !(fs.existsPath args.cacheDir) then
    (ServerResult.err ("Legacy cache directory not found: " ++ args.cacheDir),
     s, fs)
  else
    let targetCacheDir := getCacheDirectory args.cacheDir topic
    if !(fs.existsPath targetCacheDir) then
      (ServerResult.err ("Cache directory not found: " ++ targetCacheDir),
       s, fs)
    else
      let s2 : CacheState :=
        { s with
          cacheDir := args.cacheDir
          currentTopic := topic
          activeTopic := topic
          isInitialized := true }
      (ServerResult.ok (loadedContextText fs targetCacheDir), s2, fs)

/-- `handleAutoUpdateCache`: sets the per-topic flag (mirroring it into the
global flag when the target is the active topic) or the global flag in
legacy mode; a truthy `updateInterval` updates the single shared
interval. -/
def handleAutoUpdateCache (args : AutoUpdateArgs) (s : CacheState) :
    ServerResult × CacheState :=
  let targetTopic := resolveTarget args.topic s.activeTopic
  let s1 :=
    match targetTopic with
    | some t =>
      let sA :=
        { s with
          topicAutoUpdateSettings :=
            setKey s.topicAutoUpdateSettings t args.enable }
      if s.activeTopic == some t then
        { sA with autoUpdateEnabled := args.enable }
      else sA
    | none => { s with autoUpdateEnabled := args.enable }
  let s2 :=
    if args.updateInterval != 0 then
      { s1 with updateInterval := args.updateInterval }
    else s1
  (ServerResult.ok "Auto-Cache configured", s2)

/-- `handleGetCacheStatus`: read-only report (text abridged); mutates
neither the cache state nor the file system. -/
def handleGetCacheStatus (topic : Option String) (s : CacheState)
    (fs : FS) : ServerResult :=
  match truthy topic with
  | some t =>
    ServerResult.ok ("Cache System Status - Topic: " ++ t
      ++ (if fs.existsPath (getCacheDirectory s.cacheDir (some t)) then
            " exists" else " missing"))
  | none =>
    if !(fs.existsPath s.cacheDir) then
      ServerResult.ok "Welcome to the Conversation Cache System"
    else
      ServerResult.ok "Cache System Status - Global Overview"

/-- `handleGetCacheTopics`: read-only topic inventory (text abridged);
mutates neither the cache state nor the file system. -/
def handleGetCacheTopics (cacheDir : String) (s : CacheState) (fs : FS) :
    ServerResult :=
  if !(fs.existsPath cacheDir) then
    ServerResult.ok "Welcome to Topic-Based Memory System"
  else
    ServerResult.ok ("Cache Topics Overview: "
      ++ toString (loadSessionManifest fs cacheDir).activeSessions.length
      ++ " active, current "
      ++ (s.activeTopic.getD "none"))

/-- `handleArchiveCache`: requires confirmation; checks the topic directory
first and the manifest entry second, then moves the entry from
`activeSessions` to `archivedSessions` with `archivedAt = now`, saves the
manifest, drops the per-topic auto-update entry, and clears the active
topic and the global flag when the archived topic was active. -/
def handleArchiveCache (args : ArchiveArgs) (s : CacheState) (fs : FS)
    (now : Int) : ServerResult × CacheState × FS :=
  if !args.confirmArchive then
    (ServerResult.ok "Archive Confirmation Required", s, fs)
  else
    let topicCacheDir := getCacheDirectory args.cacheDir (some args.topic)
    if !(fs.existsPath topicCacheDir) then
      (ServerResult.err
        ("Topic not found. Directory does not exist: " ++ topicCacheDir),
       s, fs)
    else
      let manifest := loadSessionManifest fs args.cacheDir
      match lookupKey manifest.activeSessions args.topic with
      | none =>
        (ServerResult.err
          ("Topic not found in session manifest: " ++ args.topic), s, fs)
      | some sessionInfo =>
        let archivedSessionInfo := { sessionInfo with archivedAt := some now }
        let manifest2 : SessionManifest :=
          { manifest with
            archivedSessions :=
              some (setKey (archivedOf manifest) args.topic
                archivedSessionInfo)
            activeSessions := eraseKey manifest.activeSessions args.topic }
        let fs2 := saveSessionManifest fs args.cacheDir manifest2
        let s1 :=
          { s with
            topicAutoUpdateSettings :=
              eraseKey s.topicAutoUpdateSettings args.topic }
        let s2 :=
          if s1.activeTopic == some args.topic then
            { s1 with activeTopic := none, autoUpdateEnabled := false }
          else s1
        (ServerResult.ok "Topic Archived Successfully", s2, fs2)

/-- Selection predicate of the cleanup loop: too old or ranked beyond
`maxSessions`, and never the currently active topic. -/
def cleanupSelected (activeTopic : Option String)
    (cutoff maxSessions : Int) (i : Nat) (t : String) (e : SessionEntry) :
    Bool :=
  let tooOld := e.lastUsed < cutoff
  let excessCount := (i : Int) ≥ maxSessions
  let isCurrentlyActive := activeTopic == some t
  (tooOld || excessCount) && !isCurrentlyActive

/-- Stable insertion of one entry into a list sorted by `lastUsed`
descending (equal keys keep their relative order, as JS `sort` is
stable). -/
def insertByLastUsed (x : String × SessionEntry) :
    List (String × SessionEntry) → List (String × SessionEntry)
  | [] => [x]
  | y :: ys =>
    if y.2.lastUsed < x.2.lastUsed then x :: y :: ys
    else y :: insertByLastUsed x ys

/-- The cleanup sort: active sessions ordered by `lastUsed` descending. -/
def sortByLastUsedDesc (l : List (String × SessionEntry)) :
    List (String × SessionEntry) :=
  l.foldl (fun acc x => insertByLastUsed x acc) []

/-- The cleanup loop over the sorted session list: selected topics are
removed from the manifest and from the per-topic auto-update map. -/
def cleanupLoop (activeTopic : Option String) (cutoff maxSessions : Int) :
    List (String × SessionEntry) → Nat →
    SessionManifest × List (String × Bool) →
    SessionManifest × List (String × Bool)
  | [], _, acc => acc
  | (t, e) :: rest, i, (m, settings) =>
    if cleanupSelected activeTopic cutoff maxSessions i t e then
      cleanupLoop activeTopic cutoff maxSessions rest (i + 1)
        ({ m with activeSessions := eraseKey m.activeSessions t },
         eraseKey settings t)
    else
      cleanupLoop activeTopic cutoff maxSessions rest (i + 1) (m, settings)

/-- `handleCleanupCache`: requires confirmation and an existing base
directory; sorts by `lastUsed` descending, runs the cleanup loop, and
saves the pruned manifest. No file or directory is deleted — directory
deletion is only reported as a manual follow-up. -/
def handleCleanupCache (args : CleanupArgs) (s : CacheState) (fs : FS)
    (now : Int) : ServerResult × CacheState × FS :=
  if !args.confirmCleanup then
    (ServerResult.ok "Cleanup Confirmation Required", s, fs)
  else if !(fs.existsPath args.cacheDir) then
    (ServerResult.err ("Cache directory not found: " ++ args.cacheDir),
     s, fs)
  else
    let manifest := loadSessionManifest fs args.cacheDir
    let cutoffDate := now - args.cleanupAfterDays * 86400000
    let sorted := sortByLastUsedDesc manifest.activeSessions
    let res :=
      cleanupLoop s.activeTopic cutoffDate args.maxSessions sorted 0
        (manifest, s.topicAutoUpdateSettings)
    let fs2 := saveSessionManifest fs args.cacheDir res.1
    (ServerResult.ok "Cache Cleanup Complete",
     { s with topicAutoUpdateSettings := res.2 }, fs2)

/-- Effective auto-update enablement used by the trigger: the per-topic
flag of the active topic (absent means disabled), else the global flag. -/
def effectiveEnabled (s : CacheState) : Bool :=
  match truthy s.activeTopic with
  | some t => lookupKey s.topicAutoUpdateSettings t == some true
  | none => s.autoUpdateEnabled

/-- `incrementToolCallCounter`: increments the counter unconditionally and,
when the effective flag is set, the system is initialized, and the counter
is divisible by the interval, dispatches an un-awaited `update_cache` call
whose arguments are returned here (the dispatch runs asynchronously; its
effect corresponds to a later `update` operation). -/
def incrementToolCallCounter (s : CacheState) (now : Int) :
    CacheState × Option UpdateArgs :=
  let s1 := { s with toolCallCount := s.toolCallCount + 1 }
  let targetTopic := truthy s1.activeTopic
  let shouldAutoUpdate :=
    match targetTopic with
    | some t => lookupKey s1.topicAutoUpdateSettings t == some true
    | none => s1.autoUpdateEnabled
  if shouldAutoUpdate && s1.isInitialized
      && (s1.toolCallCount % s1.updateInterval == 0) then
    (s1,
     some
      { conversationSummary :=
          "Auto-update triggered after " ++ toString s1.toolCallCount
            ++ " tool calls at " ++ isoStr now
        projectUpdate := none
        decisionsUpdate := none
        nextStepsUpdate := none
        topic := targetTopic })
  else (s1, none)

/-- Iterates `incrementToolCallCounter` and counts the dispatched
auto-updates. -/
def tickRun (s : CacheState) (now : Int) : Nat → CacheState × Nat
  | 0 => (s, 0)
  | k + 1 =>
    let r := incrementToolCallCounter s now
    let rest := tickRun r.1 now k
    (rest.1, (if r.2.isSome then 1 else 0) + rest.2)

/-- One externally dispatched operation of the lifecycle surface. The
fire-and-forget auto-update dispatched by `opTick` executes
`handleUpdateCache` later; in a trace it is represented by a subsequent
`opUpdate` with the dispatched arguments. -/
inductive CacheOp
  | opInit : InitArgs → Int → CacheOp
  | opUpdate : UpdateArgs → Int → CacheOp
  | opLoad : LoadArgs → CacheOp
  | opAutoUpdate : AutoUpdateArgs → CacheOp
  | opStatus : Option String → CacheOp
  | opTopics : String → CacheOp
  | opArchive : ArchiveArgs → Int → CacheOp
  | opCleanup : CleanupArgs → Int → CacheOp
  | opTick : Int → CacheOp
deriving Repr, DecidableEq

/-- Whole-system state: the in-memory singleton plus the file system. -/
structure Sys where
  st : CacheState
  fs : FS
deriving Repr, DecidableEq

/-- The effect of one operation on the system state (responses
discarded). -/
def stepOp : CacheOp → Sys → Sys
  | CacheOp.opInit a now, σ =>
    let r := handleInitCache a σ.st σ.fs now
    { st := r.2.1, fs := r.2.2 }
  | CacheOp.opUpdate a now, σ =>
    let r := handleUpdateCache a σ.st σ.fs now
    { st := r.2.1, fs := r.2.2 }
  | CacheOp.opLoad a, σ =>
    let r := handleLoadCache a σ.st σ.fs
    { st := r.2.1, fs := r.2.2 }
  | CacheOp.opAutoUpdate a, σ =>
    { σ with st := (handleAutoUpdateCache a σ.st).2 }
  | CacheOp.opStatus _, σ => σ
  | CacheOp.opTopics _, σ => σ
  | CacheOp.opArchive a now, σ =>
    let r := handleArchiveCache a σ.st σ.fs now
    { st := r.2.1, fs := r.2.2 }
  | CacheOp.opCleanup a now, σ =>
    let r := handleCleanupCache a σ.st σ.fs now
    { st := r.2.1, fs := r.2.2 }
  | CacheOp.opTick now, σ =>
    { σ with st := (incrementToolCallCounter σ.st now).1 }

/-- Runs a sequence of operations. -/
def runOps (ops : List CacheOp) (σ : Sys) : Sys :=
  ops.foldl (fun σ op => stepOp op σ) σ

/-- A manifest keeps active and archived topic sets disjoint. -/
def manifestExclusive (m : SessionManifest) : Bool :=
  m.activeSessions.all (fun p => !hasKey (archivedOf m) p.1)

/-- All manifest files on disk keep the two topic sets disjoint. -/
def fsManifestsExclusive (fs : FS) : Bool :=
  fs.manifests.all
    (fun p =>
      match p.2 with
      | ManifestFile.corrupt => true
      | ManifestFile.parsed m => manifestExclusive m)

/-- Side condition under which one operation preserves exclusivity: `init`
must not target a topic that the manifest it is about to load already
archives (re-initializing an archived topic duplicates it). -/
def opOk (op : CacheOp) (σ : Sys) : Bool :=
  match op with
  | CacheOp.opInit a _ =>
    match truthy a.topic with
    | some t => !hasKey (archivedOf (loadSessionManifest σ.fs a.cacheDir)) t
    | none => true
  | _ => true

/-- The side condition along a whole trace. -/
def opsOk : List CacheOp → Sys → Bool
  | [], _ => true
  | op :: rest, σ => opOk op σ && opsOk rest (stepOp op σ)

/-- Model of `readFileInternal(path, offset, maxLines)` on raw file text:
returns the selected window of lines. -/
def readFileLines (content : String) (offset maxLines : Nat) : String :=
  String.intercalate "\n" (((content.splitOn "\n").drop offset).take maxLines)

/-- Text-level model of `loadSessionManifest`, keeping the raw file
content: the platform JSON parser is abstracted as the `parse` parameter;
only the first 1000 lines of the file are ever given to it. -/
def loadSessionManifestText (parse : String → Option SessionManifest)
    (file : Option String) : SessionManifest :=
  match file with
  | none => defaultManifest
  | some content =>
    match parse (readFileLines content 0 1000) with
    | some m => m
    | none => defaultManifest

/-- Text-level load-then-save cycle: the next `saveSessionManifest`
serializes whatever `loadSessionManifest` returned (serialization
abstracted as `stringify`). -/
def manifestLoadThenSave (parse : String → Option SessionManifest)
    (stringify : SessionManifest → String) (file : Option String) :
    String :=
  stringify (loadSessionManifestText parse file)

/-- Concatenation of a list of strings (used to state cumulative append
effects). -/
def concatAll : List String → String
  | [] => ""
  | st :: rest => st ++ concatAll rest

/-- Whether the cleanup loop, scanning the sorted list `l` from index `i`,
selects topic `t` for removal at some position. -/
def anySelectedFrom (act : Option String) (cutoff maxS : Int) (t : String) :
    List (String × SessionEntry) → Nat → Bool
  | [], _ => false
  | (u, e) :: rest, i =>
    (u == t && cleanupSelected act cutoff maxS i u e)
      || anySelectedFrom act cutoff maxS t rest (i + 1)

theorem hasKey_eq_isSome {α : Type} (l : List (String × α)) (x : String) :
    hasKey l x = (lookupKey l x).isSome := by
  induction l with
  | nil => rfl
  | cons p rest ih =>
    simp only [hasKey, lookupKey, List.any_cons, List.find?_cons] at *
    by_cases hp : p.1 == x
    · simp [hp]
    · simp only [Bool.not_eq_true] at hp
      simp [hp, ih]

theorem lookupKey_map_setfn {α : Type} (l : List (String × α))
    (k x : String) (v : α) (hx : x ≠ k) :
    lookupKey (l.map (fun p => if p.1 == k then (k, v) else p)) x
      = lookupKey l x := by
  induction l with
  | nil => rfl
  | cons p rest ih =>
    simp only [List.map_cons, lookupKey, List.find?_cons]
    by_cases hp : p.1 = k
    · have h1 : (if (p.1 == k) = true then (k, v) else p) = (k, v) := by
        simp [hp]
      rw [h1]
      have h2 : (k == x) = false := by
        simp [beq_iff_eq]; exact fun h => hx h.symm
      have h3 : (p.1 == x) = false := by
        simp [beq_iff_eq, hp]; exact fun h => hx h.symm
      simp only [h2, h3]
      simpa [lookupKey] using ih
    · have h1 : (if (p.1 == k) = true then (k, v) else p) = p := by
        simp [hp]
      rw [h1]
      by_cases hpx : p.1 == x
      · simp [hpx]
      · simp only [Bool.not_eq_true] at hpx
        simp only [hpx]
        simpa [lookupKey] using ih

theorem lookupKey_setKey {α : Type} (l : List (String × α)) (k x : String)
    (v : α) :
    lookupKey (setKey l k v) x = if x = k then some v else lookupKey l x :=
  by
  by_cases hx : x = k
  · subst hx
    simp only [if_pos rfl]
    by_cases hany : l.any (fun p => p.1 == x)
    · simp only [setKey, hany, if_pos]
      induction l with
      | nil => simp at hany
      | cons p rest ih =>
        simp only [List.any_cons] at hany
        by_cases hp : p.1 = x
        · simp [lookupKey, List.find?_cons, hp]
        · have hp' : (p.1 == x) = false := by simp [beq_iff_eq, hp]
          simp only [hp', Bool.false_or] at hany
          simp only [List.map_cons]
          have h1 : (if (p.1 == x) = true then (x, v) else p) = p := by
            simp [hp']
          rw [h1]
          simp only [lookupKey, List.find?_cons, hp']
          exact ih hany
    · simp only [setKey, hany, if_neg, Bool.not_eq_true]
      have hnone : lookupKey l x = none := by
        have := hasKey_eq_isSome l x
        simp only [hasKey] at this
        rw [Bool.not_eq_true] at hany
        rw [hany] at this
        cases h : lookupKey l x with
        | none => rfl
        | some a => rw [h] at this; simp at this
      simp only [lookupKey, List.find?_append]
      have : l.find? (fun p => p.1 == x) = none := by
        have h := hnone
        simp only [lookupKey] at h
        cases hf : l.find? (fun p => p.1 == x) with
        | none => rfl
        | some a => rw [hf] at h; simp at h
      simp [this, List.find?_cons]
  · rw [if_neg hx]
    by_cases hany : l.any (fun p => p.1 == k)
    · simp only [setKey, hany, if_pos]
      exact lookupKey_map_setfn l k x v hx
    · simp only [setKey, hany, if_neg, Bool.not_eq_true]
      simp only [lookupKey, List.find?_append]
      cases hf : l.find? (fun p => p.1 == x) with
      | none =>
        have hk : (k == x) = false := by
          simp [beq_iff_eq]; exact fun h => hx h.symm
        simp [List.find?_cons, hk, lookupKey, hf]
      | some a => simp [lookupKey, hf]

theorem hasKey_setKey {α : Type} (l : List (String × α)) (k x : String)
    (v : α) :
    hasKey (setKey l k v) x = (x == k || hasKey l x) := by
  rw [hasKey_eq_isSome, hasKey_eq_isSome, lookupKey_setKey]
  by_cases hx : x = k
  · simp [hx]
  · simp [hx, beq_iff_eq]

theorem lookupKey_eraseKey {α : Type} (l : List (String × α))
    (k x : String) :
    lookupKey (eraseKey l k) x = if x = k then none else lookupKey l x := by
  induction l with
  | nil => simp [eraseKey, lookupKey]
  | cons p rest ih =>
    by_cases hp : p.1 = k
    · have hp' : (p.1 != k) = false := by simp [bne, beq_iff_eq, hp]
      have hfilter : eraseKey (p :: rest) k = eraseKey rest k := by
        simp [eraseKey, List.filter_cons, hp']
      rw [hfilter, ih]
      by_cases hx : x = k
      · simp [hx]
      · have hpx : (p.1 == x) = false := by
          simp [beq_iff_eq, hp]; exact fun h => hx h.symm
        simp [hx, lookupKey, List.find?_cons, hpx]
    · have hp' : (p.1 != k) = true := by simp [bne, beq_iff_eq, hp]
      have hfilter : eraseKey (p :: rest) k = p :: eraseKey rest k := by
        simp [eraseKey, List.filter_cons, hp']
      rw [hfilter]
      by_cases hpx : p.1 = x
      · have hx : x ≠ k := by rw [← hpx]; exact hp
        simp [lookupKey, List.find?_cons, hpx, hx]
      · have hpx' : (p.1 == x) = false := by simp [beq_iff_eq, hpx]
        have hstep : lookupKey (p :: eraseKey rest k) x
            = lookupKey (eraseKey rest k) x := by
          simp [lookupKey, List.find?_cons, hpx']
        rw [hstep, ih]
        by_cases hx : x = k
        · simp [hx]
        · simp [hx, lookupKey, List.find?_cons, hpx']

theorem hasKey_eraseKey {α : Type} (l : List (String × α)) (k x : String) :
    hasKey (eraseKey l k) x = (!(x == k) && hasKey l x) := by
  rw [hasKey_eq_isSome, hasKey_eq_isSome, lookupKey_eraseKey]
  by_cases hx : x = k
  · simp [hx]
  · simp [hx, beq_iff_eq]

theorem mem_setKey {α : Type} {q : String × α} {l : List (String × α)}
    {k : String} {v : α} (h : q ∈ setKey l k v) : q ∈ l ∨ q = (k, v) := by
  by_cases hany : l.any (fun p => p.1 == k)
  · simp only [setKey, hany, if_pos] at h
    rcases List.mem_map.mp h with ⟨p, hp, hq⟩
    by_cases hpk : p.1 == k
    · right; simp [hpk] at hq; exact hq.symm
    · left; rw [Bool.not_eq_true] at hpk; simp [hpk] at hq
      rw [← hq]; exact hp
  · simp only [setKey, hany, if_neg, Bool.not_eq_true] at h
    rcases List.mem_append.mp h with h1 | h1
    · left; exact h1
    · right; simpa using h1

theorem lookupKey_mem {α : Type} {l : List (String × α)} {k : String}
    {v : α} (h : lookupKey l k = some v) : (k, v) ∈ l := by
  unfold lookupKey at h
  cases hf : l.find? (fun p => p.1 == k) with
  | none => rw [hf] at h; simp at h
  | some q =>
    rw [hf] at h
    have hq := List.find?_some hf
    have hqmem := List.mem_of_find?_eq_some hf
    rw [beq_iff_eq] at hq
    simp only [Option.map_some'] at h
    have hqkv : q = (k, v) := by
      cases q with
      | mk q1 q2 =>
        simp only at hq h
        injection h with h2
        rw [hq, h2]
    rw [← hqkv]
    exact hqmem

theorem writeFileE_frame (fs : FS) (p c : String) (m : WriteMode) (fs2 : FS)
    (h : fs.writeFileE p c m = Except.ok fs2) :
    fs2.dirs = fs.dirs ∧ fs2.manifests = fs.manifests
      ∧ fs2.failWrites = fs.failWrites := by
  unfold FS.writeFileE at h
  split at h
  · exact Except.noConfusion h
  · cases m with
    | rewrite =>
      simp only at h
      cases h
      exact ⟨rfl, rfl, rfl⟩
    | append =>
      simp only at h
      split at h
      · cases h; exact ⟨rfl, rfl, rfl⟩
      · cases h; exact ⟨rfl, rfl, rfl⟩

theorem writeSeq_frame (ws : List (String × String × WriteMode)) (fs : FS) :
    (writeSeq fs ws).2.dirs = fs.dirs
      ∧ (writeSeq fs ws).2.manifests = fs.manifests
      ∧ (writeSeq fs ws).2.failWrites = fs.failWrites := by
  induction ws generalizing fs with
  | nil => exact ⟨rfl, rfl, rfl⟩
  | cons w rest ih =>
    obtain ⟨p, c, m⟩ := w
    simp only [writeSeq]
    cases hw : fs.writeFileE p c m with
    | error e => exact ⟨rfl, rfl, rfl⟩
    | ok fs2 =>
      obtain ⟨h1, h2, h3⟩ := writeFileE_frame fs p c m fs2 hw
      obtain ⟨g1, g2, g3⟩ := ih fs2
      exact ⟨g1.trans h1, g2.trans h2, g3.trans h3⟩

theorem createDir_frame (fs : FS) (p : String) :
    (fs.createDir p).files = fs.files
      ∧ (fs.createDir p).manifests = fs.manifests
      ∧ (fs.createDir p).failWrites = fs.failWrites := by
  unfold FS.createDir
  split
  · exact ⟨rfl, rfl, rfl⟩
  · exact ⟨rfl, rfl, rfl⟩

theorem saveSessionManifest_frame (fs : FS) (b : String)
    (m : SessionManifest) :
    (saveSessionManifest fs b m).files = fs.files
      ∧ (saveSessionManifest fs b m).dirs = fs.dirs
      ∧ (saveSessionManifest fs b m).failWrites = fs.failWrites := by
  unfold saveSessionManifest
  split
  · exact ⟨rfl, rfl, rfl⟩
  · exact ⟨rfl, rfl, rfl⟩

theorem loadSessionManifest_exclusive (fs : FS) (b : String)
    (h : fsManifestsExclusive fs = true) :
    manifestExclusive (loadSessionManifest fs b) = true := by
  unfold loadSessionManifest
  cases hl : lookupKey fs.manifests (manifestPath b) with
  | none => rfl
  | some mf =>
    cases mf with
    | corrupt => rfl
    | parsed m =>
      have hmem := lookupKey_mem hl
      unfold fsManifestsExclusive at h
      rw [List.all_eq_true] at h
      exact h _ hmem

theorem saveSessionManifest_exclusive (fs : FS) (b : String)
    (m : SessionManifest) (hfs : fsManifestsExclusive fs = true)
    (hm : manifestExclusive m = true) :
    fsManifestsExclusive (saveSessionManifest fs b m) = true := by
  unfold saveSessionManifest
  split
  · exact hfs
  · unfold fsManifestsExclusive at hfs ⊢
    rw [List.all_eq_true] at hfs ⊢
    intro q hq
    rcases mem_setKey hq with hq1 | hq1
    · exact hfs q hq1
    · rw [hq1]; exact hm

theorem exclusive_set_active (m : SessionManifest) (t : String)
    (e : SessionEntry) (hm : manifestExclusive m = true)
    (ht : hasKey (archivedOf m) t = false) :
    manifestExclusive
      { m with activeSessions := setKey m.activeSessions t e } = true := by
  unfold manifestExclusive at *
  rw [List.all_eq_true] at *
  intro q hq
  rcases mem_setKey hq with hq1 | hq1
  · exact hm q hq1
  · rw [hq1]
    simpa [archivedOf] using ht

theorem exclusive_erase_active (m : SessionManifest) (t : String)
    (hm : manifestExclusive m = true) :
    manifestExclusive
      { m with activeSessions := eraseKey m.activeSessions t } = true := by
  unfold manifestExclusive at *
  rw [List.all_eq_true] at *
  intro q hq
  exact hm q (List.mem_filter.mp hq).1

theorem exclusive_archive_move (m : SessionManifest) (t : String)
    (e : SessionEntry) (hm : manifestExclusive m = true) :
    manifestExclusive
      { m with
        archivedSessions := some (setKey (archivedOf m) t e)
        activeSessions := eraseKey m.activeSessions t } = true := by
  unfold manifestExclusive at *
  rw [List.all_eq_true] at *
  intro q hq
  have hq2 : q ∈ m.activeSessions := (List.mem_filter.mp hq).1
  have hqt : (q.1 != t) = true := (List.mem_filter.mp hq).2
  have hold := hm q hq2
  simp only [Bool.not_eq_true'] at hold ⊢
  simp only [archivedOf, Option.getD_some]
  rw [show (setKey (m.archivedSessions.getD []) t e)
        = setKey (archivedOf m) t e from rfl]
  rw [hasKey_setKey]
  have hq1t : (q.1 == t) = false := by
    simpa [bne] using hqt
  rw [hq1t, hold]
  rfl

theorem cleanupLoop_exclusive (act : Option String) (cutoff maxS : Int)
    (l : List (String × SessionEntry)) (i : Nat) (m : SessionManifest)
    (settings : List (String × Bool)) (hm : manifestExclusive m = true) :
    manifestExclusive (cleanupLoop act cutoff maxS l i (m, settings)).1
      = true := by
  induction l generalizing i m settings with
  | nil => simpa [cleanupLoop] using hm
  | cons p rest ih =>
    obtain ⟨t, e⟩ := p
    simp only [cleanupLoop]
    by_cases hsel : cleanupSelected act cutoff maxS i t e
    · simp only [hsel, if_pos]
      exact ih (i + 1) _ (eraseKey settings t)
        (exclusive_erase_active m t hm)
    · simp only [hsel, if_neg, Bool.false_eq_true, not_false_iff]
      exact ih (i + 1) m settings hm

theorem cleanupLoop_archived (act : Option String) (cutoff maxS : Int)
    (l : List (String × SessionEntry)) (i : Nat) (m : SessionManifest)
    (settings : List (String × Bool)) :
    (cleanupLoop act cutoff maxS l i (m, settings)).1.archivedSessions
      = m.archivedSessions := by
  induction l generalizing i m settings with
  | nil => rfl
  | cons p rest ih =>
    obtain ⟨t, e⟩ := p
    simp only [cleanupLoop]
    by_cases hsel : cleanupSelected act cutoff maxS i t e
    · simp only [hsel, if_pos]
      exact ih (i + 1) _ (eraseKey settings t)
    · simp only [hsel, if_neg, Bool.false_eq_true, not_false_iff]
      exact ih (i + 1) m settings

theorem string_isEmpty_false {t : String} (ht : t ≠ "") :
    t.isEmpty = false := by
  cases h : t.isEmpty with
  | false => rfl
  | true => exact absurd ((String.isEmpty_iff t).mp h) ht

/-- C7: the path resolver returns the base directory unchanged when no
topic is given, and join(base, t) for every non-empty topic t; it is a
pure total Lean function, so it performs no I/O and has no failure
mode. -/
theorem getCacheDirectory_spec (base t : String) (ht : t ≠ "") :
    getCacheDirectory base none = base
      ∧ getCacheDirectory base (some t) = joinPath base t := by
  refine ⟨rfl, ?_⟩
  simp only [getCacheDirectory]
  rw [string_isEmpty_false ht]
  simp

theorem getCacheDirectory_spec_witness :
    getCacheDirectory "C:\\Claude_Session" none = "C:\\Claude_Session"
      ∧ getCacheDirectory "C:\\Claude_Session" (some "demo")
          = joinPath "C:\\Claude_Session" "demo" :=
  getCacheDirectory_spec "C:\\Claude_Session" "demo" (by decide)

theorem handleInitCache_existing_dir (args : InitArgs) (s : CacheState)
    (fs : FS) (now : Int)
    (hdir : fs.existsPath
        (getCacheDirectory args.cacheDir (truthy args.topic)) = true)
    (c u : Bool) :
    handleInitCache
        { args with confirmCreate := c, understoodGrowth := u } s fs now
      = initCacheBody args.cacheDir args.projectName (truthy args.topic)
          args.sessionOnly s fs now := by
  simp only [handleInitCache, hdir, Bool.not_true, Bool.false_eq_true,
    if_false]

/-- C6: the permission gate blocks whenever either consent flag is false
and passes exactly when both are true; and `init` consults the gate only
when the resolved target directory does not yet exist, so over an existing
directory the outcome of `init` does not depend on the two consent
flags. -/
theorem checkCreatePermission_spec (c u : Bool) (args : InitArgs)
    (s : CacheState) (fs : FS) (now : Int) (c1 u1 c2 u2 : Bool)
    (hdir : fs.existsPath
        (getCacheDirectory args.cacheDir (truthy args.topic)) = true) :
    (checkCreatePermission c u = none ↔ (c = true ∧ u = true))
      ∧ handleInitCache
          { args with confirmCreate := c1, understoodGrowth := u1 } s fs now
        = handleInitCache
            { args with confirmCreate := c2, understoodGrowth := u2 }
            s fs now := by
  constructor
  · cases c <;> cases u <;> simp [checkCreatePermission]
  · rw [handleInitCache_existing_dir args s fs now hdir c1 u1,
      handleInitCache_existing_dir args s fs now hdir c2 u2]

theorem checkCreatePermission_spec_witness :
    (checkCreatePermission true true = none ↔ (true = true ∧ true = true))
      ∧ handleInitCache
          { cacheDir := "base", projectName := none, topic := some "demo",
            confirmCreate := false, understoodGrowth := false,
            sessionOnly := false }
          initialCacheState
          { dirs := ["base", "base/demo"], files := [], manifests := [],
            failWrites := [] } 0
        = handleInitCache
            { cacheDir := "base", projectName := none, topic := some "demo",
              confirmCreate := true, understoodGrowth := true,
              sessionOnly := false }
            initialCacheState
            { dirs := ["base", "base/demo"], files := [], manifests := [],
              failWrites := [] } 0 :=
  checkCreatePermission_spec true true
    { cacheDir := "base", projectName := none, topic := some "demo",
      confirmCreate := false, understoodGrowth := false,
      sessionOnly := false }
    initialCacheState
    { dirs := ["base", "base/demo"], files := [], manifests := [],
      failWrites := [] }
    0 false false true true (by decide)

theorem tick_state_eq (s : CacheState) (now : Int) :
    (incrementToolCallCounter s now).1
      = { s with toolCallCount := s.toolCallCount + 1 } := by
  unfold incrementToolCallCounter
  simp only
  split <;> rfl

theorem effectiveEnabled_set_count (s : CacheState) (n : Nat) :
    effectiveEnabled { s with toolCallCount := n } = effectiveEnabled s :=
  rfl

theorem tick_dispatch_isSome (s : CacheState) (now : Int) :
    (incrementToolCallCounter s now).2.isSome
      = (effectiveEnabled s && s.isInitialized
          && ((s.toolCallCount + 1) % s.updateInterval == 0)) := by
  unfold incrementToolCallCounter effectiveEnabled
  simp only
  split
  · next h =>
    rw [h]
    rfl
  · next h =>
    rw [Bool.not_eq_true] at h
    rw [h]
    rfl

theorem tickRun_div (s : CacheState) (now : Int)
    (hen : effectiveEnabled s = true) (hin : s.isInitialized = true)
    (hpos : 0 < s.updateInterval) (k : Nat) :
    (tickRun s now k).2 + s.toolCallCount / s.updateInterval
      = (s.toolCallCount + k) / s.updateInterval := by
  induction k generalizing s with
  | zero => simp [tickRun]
  | succ k ih =>
    have hstate := tick_state_eq s now
    have hen1 : effectiveEnabled (incrementToolCallCounter s now).1 = true := by
      rw [hstate, effectiveEnabled_set_count]; exact hen
    have hin1 : (incrementToolCallCounter s now).1.isInitialized = true := by
      rw [hstate]; exact hin
    have hpos1 : 0 < (incrementToolCallCounter s now).1.updateInterval := by
      rw [hstate]; exact hpos
    have hcount1 : (incrementToolCallCounter s now).1.toolCallCount
        = s.toolCallCount + 1 := by rw [hstate]
    have hint1 : (incrementToolCallCounter s now).1.updateInterval
        = s.updateInterval := by rw [hstate]
    have hdisp : (if (incrementToolCallCounter s now).2.isSome then 1 else 0)
        = (if s.updateInterval ∣ (s.toolCallCount + 1) then 1 else 0) := by
      rw [tick_dispatch_isSome, hen, hin]
      simp only [Bool.true_and]
      by_cases hd : s.updateInterval ∣ (s.toolCallCount + 1)
      · have hmod : (s.toolCallCount + 1) % s.updateInterval = 0 :=
          Nat.dvd_iff_mod_eq_zero.mp hd
        simp [hmod, hd]
      · have hmod : ¬((s.toolCallCount + 1) % s.updateInterval = 0) := by
          intro hc
          exact hd (Nat.dvd_iff_mod_eq_zero.mpr hc)
        simp [hmod, hd]
    have ihs := ih (incrementToolCallCounter s now).1 hen1 hin1 hpos1
    rw [hcount1, hint1] at ihs
    show (if (incrementToolCallCounter s now).2.isSome then 1 else 0)
        + (tickRun (incrementToolCallCounter s now).1 now k).2
        + s.toolCallCount / s.updateInterval
      = (s.toolCallCount + (k + 1)) / s.updateInterval
    rw [hdisp]
    have hsucc := Nat.succ_div (s.toolCallCount) (s.updateInterval)
    have goal2 : s.toolCallCount + (k + 1) = (s.toolCallCount + 1) + k := by
      omega
    rw [goal2]
    omega

/-- C4: every tick increments `toolCallCount` by exactly one; an un-awaited
update is dispatched exactly when the effective enablement flag, the
initialization flag, and divisibility of the incremented counter by the
interval all hold; the dispatched arguments carry the synthesized summary
and the active topic; and over `updateInterval` consecutive ticks under
constant enablement exactly one auto-update fires. -/
theorem incrementToolCallCounter_spec (s : CacheState) (now : Int) :
    (incrementToolCallCounter s now).1
        = { s with toolCallCount := s.toolCallCount + 1 }
      ∧ ((incrementToolCallCounter s now).2.isSome
          = (effectiveEnabled s && s.isInitialized
              && ((s.toolCallCount + 1) % s.updateInterval == 0)))
      ∧ (∀ args, (incrementToolCallCounter s now).2 = some args →
          args.conversationSummary
              = "Auto-update triggered after "
                ++ toString (s.toolCallCount + 1) ++ " tool calls at "
                ++ isoStr now
            ∧ args.topic = truthy s.activeTopic
            ∧ args.projectUpdate = none ∧ args.decisionsUpdate = none
            ∧ args.nextStepsUpdate = none)
      ∧ (effectiveEnabled s = true → s.isInitialized = true →
          0 < s.updateInterval →
          (tickRun s now s.updateInterval).2 = 1) := by
  refine ⟨tick_state_eq s now, tick_dispatch_isSome s now, ?_, ?_⟩
  · intro args hargs
    unfold incrementToolCallCounter at hargs
    simp only at hargs
    split at hargs
    · injection hargs with h2
      rw [← h2]
      exact ⟨rfl, rfl, rfl, rfl, rfl⟩
    · exact Option.noConfusion hargs
  · intro hen hin hpos
    have h := tickRun_div s now hen hin hpos s.updateInterval
    have h2 := Nat.add_div_right s.toolCallCount hpos
    omega

theorem incrementToolCallCounter_spec_witness :
    (incrementToolCallCounter
      { isInitialized := true, cacheDir := "base", currentTopic := some "t",
        autoUpdateEnabled := true, toolCallCount := 2, updateInterval := 3,
        lastUpdate := none, activeTopic := some "t",
        hasCreatePermission := true, permissionGrantedAt := none,
        topicAutoUpdateSettings := [("t", true)] } 5).1
      = { isInitialized := true, cacheDir := "base",
          currentTopic := some "t", autoUpdateEnabled := true,
          toolCallCount := 3, updateInterval := 3, lastUpdate := none,
          activeTopic := some "t", hasCreatePermission := true,
          permissionGrantedAt := none,
          topicAutoUpdateSettings := [("t", true)] }
    ∧ (tickRun
        { isInitialized := true, cacheDir := "base",
          currentTopic := some "t", autoUpdateEnabled := true,
          toolCallCount := 2, updateInterval := 3, lastUpdate := none,
          activeTopic := some "t", hasCreatePermission := true,
          permissionGrantedAt := none,
          topicAutoUpdateSettings := [("t", true)] } 5 3).2 = 1 := by
  constructor
  · exact (incrementToolCallCounter_spec _ 5).1
  · exact (incrementToolCallCounter_spec
      { isInitialized := true, cacheDir := "base", currentTopic := some "t",
        autoUpdateEnabled := true, toolCallCount := 2, updateInterval := 3,
        lastUpdate := none, activeTopic := some "t",
        hasCreatePermission := true, permissionGrantedAt := none,
        topicAutoUpdateSettings := [("t", true)] } 5).2.2.2
      (by decide) (by decide) (by decide)

theorem joinPath_inj_right {d a b : String}
    (h : joinPath d a = joinPath d b) : a = b := by
  unfold joinPath at h
  have h2 := congrArg String.data h
  simp only [String.data_append, List.append_assoc] at h2
  have h3 := List.append_cancel_left h2
  have h4 := List.append_cancel_left h3
  exact String.ext h4

theorem joinPath_beq_false {d a b : String} (h : a ≠ b) :
    (joinPath d a == joinPath d b) = false := by
  rw [beq_eq_false_iff_ne]
  intro hc
  exact h (joinPath_inj_right hc)

theorem writeSeq_append_content (ws : List (String × String × WriteMode))
    (fs : FS) (hfail : fs.failWrites = [])
    (hmode : ∀ w ∈ ws, w.2.2 = WriteMode.append) (p : String) :
    (writeSeq fs ws).1 = none
      ∧ fileContent (writeSeq fs ws).2 p
          = fileContent fs p
            ++ concatAll
                ((ws.filter (fun w => w.1 == p)).map (fun w => w.2.1)) := by
  induction ws generalizing fs with
  | nil => simp [writeSeq, concatAll]
  | cons w rest ih =>
    obtain ⟨q, c, m⟩ := w
    have hm : m = WriteMode.append := hmode (q, c, m) (List.mem_cons_self _ _)
    subst hm
    have hnc : fs.failWrites.contains q = false := by rw [hfail]; rfl
    have hw : fs.writeFileE q c WriteMode.append
        = Except.ok
            { fs with files := setKey fs.files q (fileContent fs q ++ c) } :=
      by
      unfold FS.writeFileE
      rw [hfail]
      simp only [List.contains_nil, Bool.false_eq_true, if_false]
      cases hl : lookupKey fs.files q with
      | some old => simp [fileContent, hl]
      | none => simp [fileContent, hl]
    simp only [writeSeq, hw]
    have hfail2 :
        (({ fs with
            files := setKey fs.files q (fileContent fs q ++ c) } : FS)
          ).failWrites = [] := hfail
    have hmode2 : ∀ w ∈ rest, w.2.2 = WriteMode.append := by
      intro w hwmem
      exact hmode w (List.mem_cons_of_mem _ hwmem)
    obtain ⟨ih1, ih2⟩ :=
      ih { fs with files := setKey fs.files q (fileContent fs q ++ c) }
        hfail2 hmode2
    refine ⟨ih1, ?_⟩
    rw [ih2]
    by_cases hqp : q = p
    · subst hqp
      have hcontent :
          fileContent
            { fs with files := setKey fs.files q (fileContent fs q ++ c) } q
            = fileContent fs q ++ c := by
        simp [fileContent, lookupKey_setKey]
      rw [hcontent]
      have hfilter :
          List.filter (fun w => w.1 == q) ((q, c, WriteMode.append) :: rest)
            = (q, c, WriteMode.append)
                :: List.filter (fun w => w.1 == q) rest := by
        simp [List.filter_cons]
      rw [hfilter]
      simp only [List.map_cons, concatAll]
      rw [String.append_assoc]
    · have hcontent :
          fileContent
            { fs with files := setKey fs.files q (fileContent fs q ++ c) } p
            = fileContent fs p := by
        simp only [fileContent, lookupKey_setKey]
        rw [if_neg (fun hc => hqp hc.symm)]
      rw [hcontent]
      have hqp' : (q == p) = false := by
        rw [beq_eq_false_iff_ne]; exact hqp
      have hfilter :
          List.filter (fun w => w.1 == p) ((q, c, WriteMode.append) :: rest)
            = List.filter (fun w => w.1 == p) rest := by
        simp [List.filter_cons, hqp']
      rw [hfilter]

theorem touchManifest_files (fs : FS) (base : String)
    (tt : Option String) (now : Int) :
    (touchManifest fs base tt now).files = fs.files
      ∧ (touchManifest fs base tt now).dirs = fs.dirs := by
  unfold touchManifest
  cases tt with
  | none => exact ⟨rfl, rfl⟩
  | some t =>
    simp only
    split
    · exact ⟨(saveSessionManifest_frame _ _ _).1,
        (saveSessionManifest_frame _ _ _).2.1⟩
    · exact ⟨rfl, rfl⟩

theorem handleUpdateCache_shape (args : UpdateArgs) (s : CacheState)
    (fs : FS) (now : Int) :
    (∃ msg fsE, handleUpdateCache args s fs now
        = (ServerResult.err msg, s, fsE))
      ∨ (∃ fs3, handleUpdateCache args s fs now
          = (ServerResult.ok "Cache Updated Successfully",
             { s with
               lastUpdate := some now
               activeTopic :=
                 match updTarget args s with
                 | some t => some t
                 | none => s.activeTopic }, fs3)) := by
  simp only [handleUpdateCache]
  by_cases h1 : (!s.isInitialized) = true
  · rw [if_pos h1]
    exact Or.inl ⟨_, _, rfl⟩
  · rw [if_neg h1]
    by_cases h2 : (!fs.existsPath (updDir args s)) = true
    · rw [if_pos h2]
      exact Or.inl ⟨_, _, rfl⟩
    · rw [if_neg h2]
      rcases hws : writeSeq fs (updateWrites args (updDir args s)
          (updTarget args s) (isoStr now))
        with ⟨oe, fs2⟩
      cases oe with
      | some e => exact Or.inl ⟨_, _, rfl⟩
      | none => exact Or.inr ⟨_, rfl⟩

/-- C9 (implicit): after any successful `update_cache` call whose resolved
target topic is `t`, the session's active topic equals `t` — an explicit
topic argument different from the current active topic silently switches
it — and apart from `activeTopic` and `lastUpdate` every other field of
the cache state is unchanged. -/
theorem handleUpdateCache_switches_activeTopic (args : UpdateArgs)
    (s : CacheState) (fs : FS) (now : Int) (t : String) (txt : String)
    (hok : (handleUpdateCache args s fs now).1 = ServerResult.ok txt)
    (ht : updTarget args s = some t) :
    (handleUpdateCache args s fs now).2.1.activeTopic = some t
      ∧ (handleUpdateCache args s fs now).2.1.lastUpdate = some now
      ∧ (handleUpdateCache args s fs now).2.1.isInitialized
          = s.isInitialized
      ∧ (handleUpdateCache args s fs now).2.1.cacheDir = s.cacheDir
      ∧ (handleUpdateCache args s fs now).2.1.currentTopic = s.currentTopic
      ∧ (handleUpdateCache args s fs now).2.1.autoUpdateEnabled
          = s.autoUpdateEnabled
      ∧ (handleUpdateCache args s fs now).2.1.toolCallCount
          = s.toolCallCount
      ∧ (handleUpdateCache args s fs now).2.1.updateInterval
          = s.updateInterval
      ∧ (handleUpdateCache args s fs now).2.1.hasCreatePermission
          = s.hasCreatePermission
      ∧ (handleUpdateCache args s fs now).2.1.permissionGrantedAt
          = s.permissionGrantedAt
      ∧ (handleUpdateCache args s fs now).2.1.topicAutoUpdateSettings
          = s.topicAutoUpdateSettings := by
  rcases handleUpdateCache_shape args s fs now with ⟨msg, fsE, heq⟩
    | ⟨fs3, heq⟩
  · rw [heq] at hok
    simp at hok
  · rw [heq]
    simp [ht]

theorem handleUpdateCache_switches_activeTopic_witness :
    (handleUpdateCache
        { conversationSummary := "progress", projectUpdate := none,
          decisionsUpdate := none, nextStepsUpdate := none,
          topic := some "t" }
        { isInitialized := true, cacheDir := "b", currentTopic := some "u",
          autoUpdateEnabled := false, toolCallCount := 4,
          updateInterval := 10, lastUpdate := none,
          activeTopic := some "u", hasCreatePermission := true,
          permissionGrantedAt := none,
          topicAutoUpdateSettings := [("u", true)] }
        { dirs := ["b", "b/t"], files := [], manifests := [],
          failWrites := [] } 9).2.1.activeTopic = some "t"
    ∧ (handleUpdateCache
        { conversationSummary := "progress", projectUpdate := none,
          decisionsUpdate := none, nextStepsUpdate := none,
          topic := some "t" }
        { isInitialized := true, cacheDir := "b", currentTopic := some "u",
          autoUpdateEnabled := false, toolCallCount := 4,
          updateInterval := 10, lastUpdate := none,
          activeTopic := some "u", hasCreatePermission := true,
          permissionGrantedAt := none,
          topicAutoUpdateSettings := [("u", true)] }
        { dirs := ["b", "b/t"], files := [], manifests := [],
          failWrites := [] } 9).2.1.topicAutoUpdateSettings
        = [("u", true)] := by
  have h := handleUpdateCache_switches_activeTopic
    { conversationSummary := "progress", projectUpdate := none,
      decisionsUpdate := none, nextStepsUpdate := none, topic := some "t" }
    { isInitialized := true, cacheDir := "b", currentTopic := some "u",
      autoUpdateEnabled := false, toolCallCount := 4, updateInterval := 10,
      lastUpdate := none, activeTopic := some "u",
      hasCreatePermission := true, permissionGrantedAt := none,
      topicAutoUpdateSettings := [("u", true)] }
    { dirs := ["b", "b/t"], files := [], manifests := [], failWrites := [] }
    9 "t" "Cache Updated Successfully" (by decide) (by decide)
  exact ⟨h.1, h.2.2.2.2.2.2.2.2.2.2⟩

theorem updateWrites_append_mode (args : UpdateArgs) (dir : String)
    (tt : Option String) (ts : String) :
    ∀ w ∈ updateWrites args dir tt ts, w.2.2 = WriteMode.append := by
  intro w hw
  unfold updateWrites at hw
  cases hp : truthy args.projectUpdate <;> rw [hp] at hw <;>
    cases hd : truthy args.decisionsUpdate <;> rw [hd] at hw <;>
      cases hn : truthy args.nextStepsUpdate <;> rw [hn] at hw <;>
        simp only [List.append_nil, List.nil_append, List.cons_append,
          List.mem_cons, List.mem_singleton, List.not_mem_nil,
          or_false, false_or, List.mem_append] at hw <;>
        rcases hw with rfl | rfl | rfl | rfl <;> rfl

theorem updateWrites_log_content (args : UpdateArgs) (dir ts : String)
    (tt : Option String) :
    concatAll (((updateWrites args dir tt ts).filter
        (fun w => w.1 == joinPath dir "conversation_log.md")).map
        (fun w => w.2.1))
      = appendEntry "Update" ts tt args.conversationSummary := by
  unfold updateWrites
  cases hp : truthy args.projectUpdate <;>
    cases hd : truthy args.decisionsUpdate <;>
      cases hn : truthy args.nextStepsUpdate <;>
        simp [List.filter_append, List.filter_cons, concatAll,
          joinPath_beq_false (show ("current_project_state.md" : String)
            ≠ "conversation_log.md" by decide),
          joinPath_beq_false (show ("decisions_made.md" : String)
            ≠ "conversation_log.md" by decide),
          joinPath_beq_false (show ("next_steps.md" : String)
            ≠ "conversation_log.md" by decide)]

theorem updateWrites_project_content (args : UpdateArgs) (dir ts : String)
    (tt : Option String) :
    concatAll (((updateWrites args dir tt ts).filter
        (fun w => w.1 == joinPath dir "current_project_state.md")).map
        (fun w => w.2.1))
      = (match truthy args.projectUpdate with
         | some u => appendEntry "Project Update" ts tt u
         | none => "") := by
  unfold updateWrites
  cases hp : truthy args.projectUpdate <;>
    cases hd : truthy args.decisionsUpdate <;>
      cases hn : truthy args.nextStepsUpdate <;>
        simp [List.filter_append, List.filter_cons, concatAll,
          joinPath_beq_false (show ("conversation_log.md" : String)
            ≠ "current_project_state.md" by decide),
          joinPath_beq_false (show ("decisions_made.md" : String)
            ≠ "current_project_state.md" by decide),
          joinPath_beq_false (show ("next_steps.md" : String)
            ≠ "current_project_state.md" by decide)]

theorem updateWrites_decisions_content (args : UpdateArgs) (dir ts : String)
    (tt : Option String) :
    concatAll (((updateWrites args dir tt ts).filter
        (fun w => w.1 == joinPath dir "decisions_made.md")).map
        (fun w => w.2.1))
      = (match truthy args.decisionsUpdate with
         | some u => appendEntry "Decision Update" ts tt u
         | none => "") := by
  unfold updateWrites
  cases hp : truthy args.projectUpdate <;>
    cases hd : truthy args.decisionsUpdate <;>
      cases hn : truthy args.nextStepsUpdate <;>
        simp [List.filter_append, List.filter_cons, concatAll,
          joinPath_beq_false (show ("conversation_log.md" : String)
            ≠ "decisions_made.md" by decide),
          joinPath_beq_false (show ("current_project_state.md" : String)
            ≠ "decisions_made.md" by decide),
          joinPath_beq_false (show ("next_steps.md" : String)
            ≠ "decisions_made.md" by decide)]

theorem updateWrites_nextsteps_content (args : UpdateArgs) (dir ts : String)
    (tt : Option String) :
    concatAll (((updateWrites args dir tt ts).filter
        (fun w => w.1 == joinPath dir "next_steps.md")).map
        (fun w => w.2.1))
      = (match truthy args.nextStepsUpdate with
         | some u => appendEntry "Next Steps Update" ts tt u
         | none => "") := by
  unfold updateWrites
  cases hp : truthy args.projectUpdate <;>
    cases hd : truthy args.decisionsUpdate <;>
      cases hn : truthy args.nextStepsUpdate <;>
        simp [List.filter_append, List.filter_cons, concatAll,
          joinPath_beq_false (show ("conversation_log.md" : String)
            ≠ "next_steps.md" by decide),
          joinPath_beq_false (show ("current_project_state.md" : String)
            ≠ "next_steps.md" by decide),
          joinPath_beq_false (show ("decisions_made.md" : String)
            ≠ "next_steps.md" by decide)]

theorem handleUpdateCache_success_eq (args : UpdateArgs) (s : CacheState)
    (fs : FS) (now : Int) (h1 : s.isInitialized = true)
    (h2 : fs.existsPath (updDir args s) = true)
    (hnone : (writeSeq fs (updateWrites args (updDir args s)
        (updTarget args s) (isoStr now))).1 = none) :
    handleUpdateCache args s fs now
      = (ServerResult.ok "Cache Updated Successfully",
         { s with
           lastUpdate := some now
           activeTopic :=
             match updTarget args s with
             | some t => some t
             | none => s.activeTopic },
         touchManifest
           (writeSeq fs (updateWrites args (updDir args s)
             (updTarget args s) (isoStr now))).2
           s.cacheDir (updTarget args s) now) := by
  simp only [handleUpdateCache, h1, h2, Bool.not_true, Bool.false_eq_true,
    if_false]
  rcases hws : writeSeq fs (updateWrites args (updDir args s)
      (updTarget args s) (isoStr now)) with ⟨oe, fs2⟩
  rw [hws] at hnone
  simp only at hnone
  subst hnone
  rfl

theorem fileContent_touchManifest (fs : FS) (b : String)
    (tt : Option String) (now : Int) (p : String) :
    fileContent (touchManifest fs b tt now) p = fileContent fs p := by
  unfold fileContent
  rw [show (touchManifest fs b tt now).files = fs.files from
    (touchManifest_files fs b tt now).1]

/-- C5: `update_cache` resolves its target as the explicit topic argument,
else the active topic, else the base directory (legacy mode): this is
`updTarget` / `updDir`. It fails NotInitialized when the system is not
initialized and DirectoryMissing when the resolved directory does not
exist, leaving state and file system completely untouched on both error
paths; on success it appends exactly one timestamped section to
`conversation_log.md`, and appends to the other three artifacts exactly
when the corresponding optional input is truthy (non-empty). -/
theorem handleUpdateCache_spec (args : UpdateArgs) (s : CacheState)
    (fs : FS) (now : Int) :
    (s.isInitialized = false →
        handleUpdateCache args s fs now
          = (ServerResult.err
              "Cache system not initialized. Use init_cache first.", s, fs))
      ∧ (s.isInitialized = true →
          fs.existsPath (updDir args s) = false →
          handleUpdateCache args s fs now
            = (ServerResult.err
                ("Cache directory not found: " ++ updDir args s), s, fs))
      ∧ (s.isInitialized = true →
          fs.existsPath (updDir args s) = true →
          fs.failWrites = [] →
          (handleUpdateCache args s fs now).1
              = ServerResult.ok "Cache Updated Successfully"
            ∧ fileContent (handleUpdateCache args s fs now).2.2
                  (joinPath (updDir args s) "conversation_log.md")
                = fileContent fs
                    (joinPath (updDir args s) "conversation_log.md")
                  ++ appendEntry "Update" (isoStr now) (updTarget args s)
                      args.conversationSummary
            ∧ fileContent (handleUpdateCache args s fs now).2.2
                  (joinPath (updDir args s) "current_project_state.md")
                = fileContent fs
                    (joinPath (updDir args s) "current_project_state.md")
                  ++ (match truthy args.projectUpdate with
                      | some u =>
                        appendEntry "Project Update" (isoStr now)
                          (updTarget args s) u
                      | none => "")
            ∧ fileContent (handleUpdateCache args s fs now).2.2
                  (joinPath (updDir args s) "decisions_made.md")
                = fileContent fs
                    (joinPath (updDir args s) "decisions_made.md")
                  ++ (match truthy args.decisionsUpdate with
                      | some u =>
                        appendEntry "Decision Update" (isoStr now)
                          (updTarget args s) u
                      | none => "")
            ∧ fileContent (handleUpdateCache args s fs now).2.2
                  (joinPath (updDir args s) "next_steps.md")
                = fileContent fs (joinPath (updDir args s) "next_steps.md")
                  ++ (match truthy args.nextStepsUpdate with
                      | some u =>
                        appendEntry "Next Steps Update" (isoStr now)
                          (updTarget args s) u
                      | none => "")) := by
  refine ⟨?_, ?_, ?_⟩
  · intro h
    simp [handleUpdateCache, h]
  · intro h1 h2
    simp [handleUpdateCache, h1, h2]
  · intro h1 h2 hfail
    have hmode := updateWrites_append_mode args (updDir args s)
      (updTarget args s) (isoStr now)
    have hkeyLog := writeSeq_append_content _ fs hfail hmode
      (joinPath (updDir args s) "conversation_log.md")
    have hred := handleUpdateCache_success_eq args s fs now h1 h2 hkeyLog.1
    refine ⟨?_, ?_, ?_, ?_, ?_⟩
    · simp only [hred]
    · simp only [hred, fileContent_touchManifest]
      rw [hkeyLog.2, updateWrites_log_content]
    · simp only [hred, fileContent_touchManifest]
      have hk := writeSeq_append_content _ fs hfail hmode
        (joinPath (updDir args s) "current_project_state.md")
      rw [hk.2, updateWrites_project_content]
    · simp only [hred, fileContent_touchManifest]
      have hk := writeSeq_append_content _ fs hfail hmode
        (joinPath (updDir args s) "decisions_made.md")
      rw [hk.2, updateWrites_decisions_content]
    · simp only [hred, fileContent_touchManifest]
      have hk := writeSeq_append_content _ fs hfail hmode
        (joinPath (updDir args s) "next_steps.md")
      rw [hk.2, updateWrites_nextsteps_content]

theorem handleUpdateCache_spec_witness :
    (handleUpdateCache
        { conversationSummary := "sum", projectUpdate := some "p",
          decisionsUpdate := none, nextStepsUpdate := some "n",
          topic := some "t" }
        { isInitialized := true, cacheDir := "b", currentTopic := none,
          autoUpdateEnabled := false, toolCallCount := 0,
          updateInterval := 10, lastUpdate := none, activeTopic := none,
          hasCreatePermission := true, permissionGrantedAt := none,
          topicAutoUpdateSettings := [] }
        { dirs := ["b", "b/t"], files := [], manifests := [],
          failWrites := [] } 3).1
        = ServerResult.ok "Cache Updated Successfully"
      ∧ fileContent (handleUpdateCache
          { conversationSummary := "sum", projectUpdate := some "p",
            decisionsUpdate := none, nextStepsUpdate := some "n",
            topic := some "t" }
          { isInitialized := true, cacheDir := "b", currentTopic := none,
            autoUpdateEnabled := false, toolCallCount := 0,
            updateInterval := 10, lastUpdate := none, activeTopic := none,
            hasCreatePermission := true, permissionGrantedAt := none,
            topicAutoUpdateSettings := [] }
          { dirs := ["b", "b/t"], files := [], manifests := [],
            failWrites := [] } 3).2.2 (joinPath "b/t" "conversation_log.md")
        = "" ++ appendEntry "Update" (isoStr 3) (some "t") "sum"
      ∧ fileContent (handleUpdateCache
          { conversationSummary := "sum", projectUpdate := some "p",
            decisionsUpdate := none, nextStepsUpdate := some "n",
            topic := some "t" }
          { isInitialized := true, cacheDir := "b", currentTopic := none,
            autoUpdateEnabled := false, toolCallCount := 0,
            updateInterval := 10, lastUpdate := none, activeTopic := none,
            hasCreatePermission := true, permissionGrantedAt := none,
            topicAutoUpdateSettings := [] }
          { dirs := ["b", "b/t"], files := [], manifests := [],
            failWrites := [] } 3).2.2 (joinPath "b/t" "decisions_made.md")
        = "" ++ "" := by
  have h := handleUpdateCache_spec
    { conversationSummary := "sum", projectUpdate := some "p",
      decisionsUpdate := none, nextStepsUpdate := some "n",
      topic := some "t" }
    { isInitialized := true, cacheDir := "b", currentTopic := none,
      autoUpdateEnabled := false, toolCallCount := 0, updateInterval := 10,
      lastUpdate := none, activeTopic := none, hasCreatePermission := true,
      permissionGrantedAt := none, topicAutoUpdateSettings := [] }
    { dirs := ["b", "b/t"], files := [], manifests := [], failWrites := [] }
    3
  obtain ⟨hc1, hc2, hc3, hc4, hc5⟩ := h.2.2 (by decide) (by decide) rfl
  exact ⟨hc1, hc2, hc4⟩

theorem loadSessionManifest_save (fs : FS) (b : String)
    (m : SessionManifest)
    (h : fs.failWrites.contains (manifestPath b) = false) :
    loadSessionManifest (saveSessionManifest fs b m) b = m := by
  unfold saveSessionManifest
  split
  · next hc => rw [h] at hc; exact absurd hc (by simp)
  · unfold loadSessionManifest
    simp only
    rw [lookupKey_setKey]
    simp

theorem handleArchiveCache_cases (args : ArchiveArgs) (s : CacheState)
    (fs : FS) (now : Int) (hconf : args.confirmArchive = true)
    (hdir : fs.existsPath
        (getCacheDirectory args.cacheDir (some args.topic)) = true) :
    (lookupKey (loadSessionManifest fs args.cacheDir).activeSessions
          args.topic = none
        ∧ handleArchiveCache args s fs now
          = (ServerResult.err
              ("Topic not found in session manifest: " ++ args.topic),
             s, fs))
      ∨ (∃ e,
          lookupKey (loadSessionManifest fs args.cacheDir).activeSessions
              args.topic = some e
          ∧ handleArchiveCache args s fs now
            = (ServerResult.ok "Topic Archived Successfully",
               (let s1 : CacheState :=
                 { s with
                   topicAutoUpdateSettings :=
                     eraseKey s.topicAutoUpdateSettings args.topic }
                if s1.activeTopic == some args.topic then
                  { s1 with activeTopic := none, autoUpdateEnabled := false }
                else s1),
               saveSessionManifest fs args.cacheDir
                 { loadSessionManifest fs args.cacheDir with
                   archivedSessions :=
                     some (setKey
                       (archivedOf (loadSessionManifest fs args.cacheDir))
                       args.topic { e with archivedAt := some now })
                   activeSessions :=
                     eraseKey (loadSessionManifest fs
                       args.cacheDir).activeSessions args.topic })) := by
  unfold handleArchiveCache
  rw [hconf]
  simp only [Bool.not_true, Bool.false_eq_true, if_false, hdir]
  cases hl : lookupKey (loadSessionManifest fs args.cacheDir).activeSessions
      args.topic with
  | none => exact Or.inl ⟨rfl, rfl⟩
  | some e => exact Or.inr ⟨e, rfl, rfl⟩

/-- C2 (amended): when `archive_cache` is called with
`confirmArchive = true` **and the topic directory exists**, it fails
NotFound if and only if the topic is absent from `activeSessions`; when
the topic is present (and the manifest write does not fail) the entry
moves from `activeSessions` to `archivedSessions` with
`archivedAt = now`, other topics are untouched, the per-topic auto-update
entry is deleted, the active topic and global flag are cleared exactly
when the archived topic was active, and no markdown file or directory is
touched. The original claim omits the directory-existence precondition:
the code checks `existsSync` before the manifest and fails NotFound even
for a topic present in `activeSessions`. -/
theorem handleArchiveCache_spec (args : ArchiveArgs) (s : CacheState)
    (fs : FS) (now : Int) (hconf : args.confirmArchive = true)
    (hdir : fs.existsPath
        (getCacheDirectory args.cacheDir (some args.topic)) = true) :
    ((handleArchiveCache args s fs now).1.isErr = true
        ↔ hasKey (loadSessionManifest fs args.cacheDir).activeSessions
            args.topic = false)
      ∧ (∀ e,
          lookupKey (loadSessionManifest fs args.cacheDir).activeSessions
              args.topic = some e →
          fs.failWrites.contains (manifestPath args.cacheDir) = false →
          hasKey (loadSessionManifest
              (handleArchiveCache args s fs now).2.2
              args.cacheDir).activeSessions args.topic = false
          ∧ lookupKey (archivedOf (loadSessionManifest
              (handleArchiveCache args s fs now).2.2 args.cacheDir))
              args.topic = some { e with archivedAt := some now }
          ∧ (∀ u, u ≠ args.topic →
              lookupKey (loadSessionManifest
                  (handleArchiveCache args s fs now).2.2
                  args.cacheDir).activeSessions u
                = lookupKey (loadSessionManifest fs
                    args.cacheDir).activeSessions u
              ∧ lookupKey (archivedOf (loadSessionManifest
                  (handleArchiveCache args s fs now).2.2 args.cacheDir)) u
                = lookupKey (archivedOf (loadSessionManifest fs
                    args.cacheDir)) u)
          ∧ (handleArchiveCache args s fs now).2.1.topicAutoUpdateSettings
              = eraseKey s.topicAutoUpdateSettings args.topic
          ∧ (s.activeTopic = some args.topic →
              (handleArchiveCache args s fs now).2.1.activeTopic = none
              ∧ (handleArchiveCache args s fs now).2.1.autoUpdateEnabled
                  = false)
          ∧ (s.activeTopic ≠ some args.topic →
              (handleArchiveCache args s fs now).2.1.activeTopic
                  = s.activeTopic
              ∧ (handleArchiveCache args s fs now).2.1.autoUpdateEnabled
                  = s.autoUpdateEnabled)
          ∧ (handleArchiveCache args s fs now).2.2.files = fs.files
          ∧ (handleArchiveCache args s fs now).2.2.dirs = fs.dirs) := by
  rcases handleArchiveCache_cases args s fs now hconf hdir with
    ⟨hl, heq⟩ | ⟨e, hl, heq⟩
  · constructor
    · rw [heq]
      have : hasKey (loadSessionManifest fs args.cacheDir).activeSessions
          args.topic = false := by
        rw [hasKey_eq_isSome, hl]
        rfl
      simp [ServerResult.isErr, this]
    · intro e he
      rw [hl] at he
      exact absurd he (by simp)
  · constructor
    · rw [heq]
      have : hasKey (loadSessionManifest fs args.cacheDir).activeSessions
          args.topic = true := by
        rw [hasKey_eq_isSome, hl]
        rfl
      simp [ServerResult.isErr, this]
    · intro e2 he2 hnf
      rw [hl] at he2
      injection he2 with he2
      subst he2
      rw [heq]
      simp only
      have hload := loadSessionManifest_save fs args.cacheDir
        { loadSessionManifest fs args.cacheDir with
          archivedSessions :=
            some (setKey
              (archivedOf (loadSessionManifest fs args.cacheDir))
              args.topic { e with archivedAt := some now })
          activeSessions :=
            eraseKey (loadSessionManifest fs
              args.cacheDir).activeSessions args.topic } hnf
      rw [hload]
      refine ⟨?_, ?_, ?_, ?_, ?_, ?_, ?_, ?_⟩
      · simp only
        rw [hasKey_eraseKey]
        simp
      · simp only [archivedOf, Option.getD_some]
        rw [lookupKey_setKey]
        simp
      · intro u hu
        constructor
        · simp only
          rw [lookupKey_eraseKey, if_neg hu]
        · simp only [archivedOf, Option.getD_some]
          rw [lookupKey_setKey, if_neg hu]
      · split <;> rfl
      · intro hact
        have : (({ s with
            topicAutoUpdateSettings :=
              eraseKey s.topicAutoUpdateSettings args.topic } :
                CacheState).activeTopic == some args.topic) = true := by
          simp [hact]
        rw [if_pos this]
        exact ⟨rfl, rfl⟩
      · intro hact
        have : (({ s with
            topicAutoUpdateSettings :=
              eraseKey s.topicAutoUpdateSettings args.topic } :
                CacheState).activeTopic == some args.topic) = false := by
          simpa using hact
        rw [if_neg (by simp [this])]
        exact ⟨rfl, rfl⟩
      · exact (saveSessionManifest_frame _ _ _).1
      · exact (saveSessionManifest_frame _ _ _).2.1

/-- C2 counterexample: a topic that is present in `activeSessions` but
whose directory is missing on disk makes `archive_cache` (with
`confirmArchive = true`) fail NotFound without moving anything — so
"fails NotFound iff the topic is absent from activeSessions" and
"whenever present it moves the entry" are both false as stated. -/
theorem handleArchiveCache_claim_counterexample :
    hasKey (loadSessionManifest
        { dirs := ["b"], files := [],
          manifests := [("b/session_manifest.json",
            ManifestFile.parsed
              { activeSessions :=
                  [("demo",
                    { createdAt := 0, lastUsed := 0, projectName := "D",
                      autoCleanupAfterDays := none, sessionOnly := false,
                      archivedAt := none })]
                archivedSessions := none
                manifestVersion := "2.0.0" })]
          failWrites := [] } "b").activeSessions "demo" = true
      ∧ (handleArchiveCache
          { topic := "demo", cacheDir := "b", confirmArchive := true }
          initialCacheState
          { dirs := ["b"], files := [],
            manifests := [("b/session_manifest.json",
              ManifestFile.parsed
                { activeSessions :=
                    [("demo",
                      { createdAt := 0, lastUsed := 0, projectName := "D",
                        autoCleanupAfterDays := none, sessionOnly := false,
                        archivedAt := none })]
                  archivedSessions := none
                  manifestVersion := "2.0.0" })]
            failWrites := [] } 5).1.isErr = true := by
  constructor
  · decide
  · decide

theorem handleArchiveCache_spec_witness :
    ((handleArchiveCache
        { topic := "demo", cacheDir := "b", confirmArchive := true }
        initialCacheState
        { dirs := ["b", "b/demo"], files := [],
          manifests := [("b/session_manifest.json",
            ManifestFile.parsed
              { activeSessions :=
                  [("demo",
                    { createdAt := 0, lastUsed := 0, projectName := "D",
                      autoCleanupAfterDays := none, sessionOnly := false,
                      archivedAt := none })]
                archivedSessions := none
                manifestVersion := "2.0.0" })]
          failWrites := [] } 5).1.isErr = true
      ↔ hasKey (loadSessionManifest
          { dirs := ["b", "b/demo"], files := [],
            manifests := [("b/session_manifest.json",
              ManifestFile.parsed
                { activeSessions :=
                    [("demo",
                      { createdAt := 0, lastUsed := 0, projectName := "D",
                        autoCleanupAfterDays := none, sessionOnly := false,
                        archivedAt := none })]
                  archivedSessions := none
                  manifestVersion := "2.0.0" })]
            failWrites := [] } "b").activeSessions "demo" = false) := by
  exact (handleArchiveCache_spec
    { topic := "demo", cacheDir := "b", confirmArchive := true }
    initialCacheState
    { dirs := ["b", "b/demo"], files := [],
      manifests := [("b/session_manifest.json",
        ManifestFile.parsed
          { activeSessions :=
              [("demo",
                { createdAt := 0, lastUsed := 0, projectName := "D",
                  autoCleanupAfterDays := none, sessionOnly := false,
                  archivedAt := none })]
            archivedSessions := none
            manifestVersion := "2.0.0" })]
      failWrites := [] } 5 (by decide) (by decide)).1

/-- C10 (implicit): `loadSessionManifest` reads at most the first 1000
lines of `session_manifest.json`; for any existing file whose JSON cannot
be parsed from those first 1000 lines alone the load silently returns the
fresh empty manifest (empty `activeSessions`, absent `archivedSessions`,
version "2.0.0"), the result depends only on those first 1000 lines, and
the next save serializes that fresh manifest, discarding all previously
recorded topic metadata. -/
theorem loadSessionManifestText_truncation
    (parse : String → Option SessionManifest)
    (stringify : SessionManifest → String) (content : String)
    (hfail : parse (readFileLines content 0 1000) = none) :
    loadSessionManifestText parse (some content) = defaultManifest
      ∧ (loadSessionManifestText parse (some content)).activeSessions = []
      ∧ (loadSessionManifestText parse
          (some content)).archivedSessions = none
      ∧ (loadSessionManifestText parse (some content)).manifestVersion
          = "2.0.0"
      ∧ manifestLoadThenSave parse stringify (some content)
          = stringify defaultManifest
      ∧ (∀ c2 : String,
          readFileLines c2 0 1000 = readFileLines content 0 1000 →
          loadSessionManifestText parse (some c2)
            = loadSessionManifestText parse (some content)) := by
  have h1 : loadSessionManifestText parse (some content)
      = defaultManifest := by
    simp only [loadSessionManifestText]
    rw [hfail]
  refine ⟨h1, by rw [h1]; rfl, by rw [h1]; rfl, by rw [h1]; rfl, ?_, ?_⟩
  · unfold manifestLoadThenSave
    rw [h1]
  · intro c2 hc2
    simp only [loadSessionManifestText]
    rw [hc2]

theorem loadSessionManifestText_truncation_witness :
    loadSessionManifestText (fun _ => none) (some "x") = defaultManifest
      ∧ manifestLoadThenSave (fun _ => none) (fun _ => "saved")
          (some "x") = "saved" := by
  have h := loadSessionManifestText_truncation (fun _ => none)
    (fun _ => "saved") "x" rfl
  exact ⟨h.1, h.2.2.2.2.1⟩

theorem saveSessionManifest_fail (fs : FS) (b : String)
    (m : SessionManifest)
    (h : fs.failWrites.contains (manifestPath b) = true) :
    saveSessionManifest fs b m = fs := by
  unfold saveSessionManifest
  split
  · rfl
  · next hc => rw [h] at hc

theorem touchManifest_manifests_fail (fs : FS) (b : String)
    (tt : Option String) (now : Int)
    (h : fs.failWrites.contains (manifestPath b) = true) :
    (touchManifest fs b tt now).manifests = fs.manifests := by
  unfold touchManifest
  cases tt with
  | none => rfl
  | some t =>
    simp only
    split
    · rw [saveSessionManifest_fail _ _ _ h]
    · rfl

theorem writeSeq_updateWrites_fail (args : UpdateArgs) (dir ts : String)
    (tt : Option String) (fs : FS)
    (h : fs.failWrites.contains (joinPath dir "conversation_log.md")
      = true) :
    writeSeq fs (updateWrites args dir tt ts)
      = (some ("Failed to write " ++ joinPath dir "conversation_log.md"),
         fs) := by
  unfold updateWrites
  simp only [List.cons_append, List.nil_append]
  have hw : fs.writeFileE (joinPath dir "conversation_log.md")
      (appendEntry "Update" ts tt args.conversationSummary)
      WriteMode.append
      = Except.error
          ("Failed to write " ++ joinPath dir "conversation_log.md") := by
    unfold FS.writeFileE
    split
    · rfl
    · next hc => rw [h] at hc
  simp only [writeSeq, hw]

/-- C8 (amended): manifest corruption during load is recovered
transparently, and markdown write failures during `update_cache` are
surfaced as errors; but a failure to write the session manifest is caught
inside `saveSessionManifest`, logged only, and swallowed: with every
markdown write succeeding and only the manifest write failing,
`update_cache` still reports success while the on-disk manifest stays
unchanged. The original claim ("a failure to write the session manifest
... is surfaced to the caller") is therefore false on the code. -/
theorem errorPropagation_spec (args : UpdateArgs) (s : CacheState)
    (fs : FS) (now : Int) (b : String) (m : SessionManifest) (fsx : FS) :
    (fsx.failWrites.contains (manifestPath b) = true →
        saveSessionManifest fsx b m = fsx)
      ∧ (lookupKey fsx.manifests (manifestPath b)
            = some ManifestFile.corrupt →
          loadSessionManifest fsx b = defaultManifest)
      ∧ (s.isInitialized = true →
          fs.existsPath (updDir args s) = true →
          fs.failWrites.contains
              (joinPath (updDir args s) "conversation_log.md") = true →
          (handleUpdateCache args s fs now).1.isErr = true)
      ∧ (s.isInitialized = true →
          fs.existsPath (updDir args s) = true →
          (writeSeq fs (updateWrites args (updDir args s)
              (updTarget args s) (isoStr now))).1 = none →
          fs.failWrites.contains (manifestPath s.cacheDir) = true →
          (handleUpdateCache args s fs now).1
              = ServerResult.ok "Cache Updated Successfully"
            ∧ (handleUpdateCache args s fs now).2.2.manifests
                = fs.manifests) := by
  refine ⟨?_, ?_, ?_, ?_⟩
  · intro h
    exact saveSessionManifest_fail fsx b m h
  · intro h
    unfold loadSessionManifest
    rw [h]
  · intro h1 h2 h3
    have hws := writeSeq_updateWrites_fail args (updDir args s)
      (isoStr now) (updTarget args s) fs h3
    simp only [handleUpdateCache, h1, h2, Bool.not_true, Bool.not_false,
      Bool.false_eq_true, if_false, hws]
    rfl
  · intro h1 h2 hnone hmf
    have hred := handleUpdateCache_success_eq args s fs now h1 h2 hnone
    constructor
    · simp only [hred]
    · simp only [hred]
      have hfw : ((writeSeq fs (updateWrites args (updDir args s)
          (updTarget args s) (isoStr now))).2.failWrites.contains
            (manifestPath s.cacheDir)) = true := by
        rw [(writeSeq_frame _ fs).2.2]
        exact hmf
      rw [touchManifest_manifests_fail _ _ _ _ hfw]
      exact (writeSeq_frame _ fs).2.1

/-- C8 counterexample: with only the manifest write failing, an
`update_cache` call reports success while the on-disk manifest keeps the
stale `lastUsed` — the manifest write failure is silently swallowed, not
surfaced. -/
theorem errorPropagation_counterexample :
    (handleUpdateCache
        { conversationSummary := "sum", projectUpdate := none,
          decisionsUpdate := none, nextStepsUpdate := none, topic := none }
        { isInitialized := true, cacheDir := "b", currentTopic := some "t",
          autoUpdateEnabled := false, toolCallCount := 0,
          updateInterval := 10, lastUpdate := none,
          activeTopic := some "t", hasCreatePermission := true,
          permissionGrantedAt := none, topicAutoUpdateSettings := [] }
        { dirs := ["b", "b/t"], files := [],
          manifests := [("b/session_manifest.json",
            ManifestFile.parsed
              { activeSessions :=
                  [("t",
                    { createdAt := 0, lastUsed := 0, projectName := "T",
                      autoCleanupAfterDays := none, sessionOnly := false,
                      archivedAt := none })]
                archivedSessions := none
                manifestVersion := "2.0.0" })]
          failWrites := ["b/session_manifest.json"] } 99).1
      = ServerResult.ok "Cache Updated Successfully"
    ∧ lookupKey (loadSessionManifest
        (handleUpdateCache
          { conversationSummary := "sum", projectUpdate := none,
            decisionsUpdate := none, nextStepsUpdate := none,
            topic := none }
          { isInitialized := true, cacheDir := "b",
            currentTopic := some "t", autoUpdateEnabled := false,
            toolCallCount := 0, updateInterval := 10, lastUpdate := none,
            activeTopic := some "t", hasCreatePermission := true,
            permissionGrantedAt := none, topicAutoUpdateSettings := [] }
          { dirs := ["b", "b/t"], files := [],
            manifests := [("b/session_manifest.json",
              ManifestFile.parsed
                { activeSessions :=
                    [("t",
                      { createdAt := 0, lastUsed := 0, projectName := "T",
                        autoCleanupAfterDays := none,
                        sessionOnly := false, archivedAt := none })]
                  archivedSessions := none
                  manifestVersion := "2.0.0" })]
            failWrites := ["b/session_manifest.json"] } 99).2.2
        "b").activeSessions "t"
      = some { createdAt := 0, lastUsed := 0, projectName := "T",
               autoCleanupAfterDays := none, sessionOnly := false,
               archivedAt := none } := by
  constructor
  · decide
  · decide

theorem errorPropagation_spec_witness :
    (handleUpdateCache
        { conversationSummary := "sum", projectUpdate := none,
          decisionsUpdate := none, nextStepsUpdate := none, topic := none }
        { isInitialized := true, cacheDir := "b", currentTopic := some "t",
          autoUpdateEnabled := false, toolCallCount := 0,
          updateInterval := 10, lastUpdate := none,
          activeTopic := some "t", hasCreatePermission := true,
          permissionGrantedAt := none, topicAutoUpdateSettings := [] }
        { dirs := ["b", "b/t"], files := [],
          manifests := [("b/session_manifest.json",
            ManifestFile.parsed defaultManifest)],
          failWrites := ["b/session_manifest.json"] } 99).1
        = ServerResult.ok "Cache Updated Successfully"
      ∧ (handleUpdateCache
          { conversationSummary := "sum", projectUpdate := none,
            decisionsUpdate := none, nextStepsUpdate := none,
            topic := none }
          { isInitialized := true, cacheDir := "b",
            currentTopic := some "t", autoUpdateEnabled := false,
            toolCallCount := 0, updateInterval := 10, lastUpdate := none,
            activeTopic := some "t", hasCreatePermission := true,
            permissionGrantedAt := none, topicAutoUpdateSettings := [] }
          { dirs := ["b", "b/t"], files := [],
            manifests := [("b/session_manifest.json",
              ManifestFile.parsed defaultManifest)],
            failWrites := ["b/session_manifest.json"] } 99).2.2.manifests
        = [("b/session_manifest.json",
            ManifestFile.parsed defaultManifest)] :=
  (errorPropagation_spec
    { conversationSummary := "sum", projectUpdate := none,
      decisionsUpdate := none, nextStepsUpdate := none, topic := none }
    { isInitialized := true, cacheDir := "b", currentTopic := some "t",
      autoUpdateEnabled := false, toolCallCount := 0, updateInterval := 10,
      lastUpdate := none, activeTopic := some "t",
      hasCreatePermission := true, permissionGrantedAt := none,
      topicAutoUpdateSettings := [] }
    { dirs := ["b", "b/t"], files := [],
      manifests := [("b/session_manifest.json",
        ManifestFile.parsed defaultManifest)],
      failWrites := ["b/session_manifest.json"] } 99 "b" defaultManifest
    { dirs := [], files := [], manifests := [],
      failWrites := [] }).2.2.2 (by decide) (by decide) (by decide)
    (by decide)

theorem cleanupLoop_active_hasKey (act : Option String)
    (cutoff maxS : Int) (t : String) (l : List (String × SessionEntry))
    (i : Nat) (m : SessionManifest) (settings : List (String × Bool)) :
    hasKey (cleanupLoop act cutoff maxS l i (m, settings)).1.activeSessions
        t
      = (hasKey m.activeSessions t
          && !anySelectedFrom act cutoff maxS t l i) := by
  induction l generalizing i m settings with
  | nil => simp [cleanupLoop, anySelectedFrom]
  | cons p rest ih =>
    obtain ⟨u, e⟩ := p
    simp only [cleanupLoop, anySelectedFrom]
    by_cases hsel : cleanupSelected act cutoff maxS i u e
    · rw [if_pos hsel, ih]
      simp only
      rw [hasKey_eraseKey]
      by_cases hut : u = t
      · subst hut
        simp [hsel]
      · have h1 : (t == u) = false := by
          rw [beq_eq_false_iff_ne]; exact fun hh => hut hh.symm
        have h2 : (u == t) = false := by
          rw [beq_eq_false_iff_ne]; exact hut
        simp [h1, h2, hsel]
    · rw [if_neg hsel, ih]
      have hsel' : cleanupSelected act cutoff maxS i u e = false := by
        rw [← Bool.not_eq_true]; exact hsel
      simp [hsel']

theorem cleanupLoop_settings_hasKey (act : Option String)
    (cutoff maxS : Int) (t : String) (l : List (String × SessionEntry))
    (i : Nat) (m : SessionManifest) (settings : List (String × Bool)) :
    hasKey (cleanupLoop act cutoff maxS l i (m, settings)).2 t
      = (hasKey settings t
          && !anySelectedFrom act cutoff maxS t l i) := by
  induction l generalizing i m settings with
  | nil => simp [cleanupLoop, anySelectedFrom]
  | cons p rest ih =>
    obtain ⟨u, e⟩ := p
    simp only [cleanupLoop, anySelectedFrom]
    by_cases hsel : cleanupSelected act cutoff maxS i u e
    · rw [if_pos hsel, ih]
      rw [hasKey_eraseKey]
      by_cases hut : u = t
      · subst hut
        simp [hsel]
      · have h1 : (t == u) = false := by
          rw [beq_eq_false_iff_ne]; exact fun hh => hut hh.symm
        have h2 : (u == t) = false := by
          rw [beq_eq_false_iff_ne]; exact hut
        simp [h1, h2, hsel]
    · rw [if_neg hsel, ih]
      have hsel' : cleanupSelected act cutoff maxS i u e = false := by
        rw [← Bool.not_eq_true]; exact hsel
      simp [hsel']

theorem anySelectedFrom_active (act : Option String) (c x : Int)
    (t : String) (hact : act = some t) (l : List (String × SessionEntry))
    (i : Nat) : anySelectedFrom act c x t l i = false := by
  induction l generalizing i with
  | nil => rfl
  | cons p rest ih =>
    obtain ⟨u, e⟩ := p
    simp only [anySelectedFrom]
    rw [ih]
    by_cases hut : u = t
    · subst hut
      subst hact
      simp [cleanupSelected]
    · have h2 : (u == t) = false := by
        rw [beq_eq_false_iff_ne]; exact hut
      simp [h2]

theorem anySelectedFrom_iff (act : Option String) (c x : Int) (t : String)
    (l : List (String × SessionEntry)) (i : Nat) :
    anySelectedFrom act c x t l i = true
      ↔ ∃ j e, l.get? j = some (t, e)
          ∧ cleanupSelected act c x (i + j) t e = true := by
  induction l generalizing i with
  | nil => simp [anySelectedFrom]
  | cons p rest ih =>
    obtain ⟨u, e0⟩ := p
    simp only [anySelectedFrom, Bool.or_eq_true, Bool.and_eq_true]
    constructor
    · rintro (⟨hut, hsel⟩ | hrest)
      · rw [beq_iff_eq] at hut
        subst hut
        refine ⟨0, e0, rfl, ?_⟩
        simpa using hsel
      · rcases (ih (i + 1)).mp hrest with ⟨j, e1, hj, hs⟩
        refine ⟨j + 1, e1, by simpa using hj, ?_⟩
        rw [show i + (j + 1) = (i + 1) + j by omega]
        exact hs
    · rintro ⟨j, e1, hj, hs⟩
      cases j with
      | zero =>
        left
        rw [List.get?_cons_zero] at hj
        injection hj with hj
        rw [Prod.mk.injEq] at hj
        obtain ⟨hj1, hj2⟩ := hj
        subst hj1
        subst hj2
        refine ⟨by simp, ?_⟩
        simpa using hs
      | succ j =>
        right
        apply (ih (i + 1)).mpr
        refine ⟨j, e1, by simpa using hj, ?_⟩
        rw [show (i + 1) + j = i + (j + 1) by omega]
        exact hs

theorem insertByLastUsed_perm (x : String × SessionEntry)
    (l : List (String × SessionEntry)) :
    (insertByLastUsed x l).Perm (x :: l) := by
  induction l with
  | nil => exact List.Perm.refl _
  | cons y ys ih =>
    simp only [insertByLastUsed]
    split
    · exact List.Perm.refl _
    · exact List.Perm.trans (ih.cons y) (List.Perm.swap x y ys)

theorem sortAux_perm (l : List (String × SessionEntry))
    (acc : List (String × SessionEntry)) :
    (l.foldl (fun acc x => insertByLastUsed x acc) acc).Perm (l ++ acc) := by
  induction l generalizing acc with
  | nil => simp
  | cons x xs ih =>
    simp only [List.foldl_cons, List.cons_append]
    exact List.Perm.trans
      (List.Perm.trans (ih _)
        (List.Perm.append_left xs (insertByLastUsed_perm x acc)))
      List.perm_middle

theorem sortByLastUsedDesc_perm (l : List (String × SessionEntry)) :
    (sortByLastUsedDesc l).Perm l := by
  have h := sortAux_perm l []
  simpa [sortByLastUsedDesc] using h

theorem insertByLastUsed_pairwise (x : String × SessionEntry)
    (l : List (String × SessionEntry))
    (hl : l.Pairwise (fun a b => b.2.lastUsed ≤ a.2.lastUsed)) :
    (insertByLastUsed x l).Pairwise
      (fun a b => b.2.lastUsed ≤ a.2.lastUsed) := by
  induction l with
  | nil => simp [insertByLastUsed]
  | cons y ys ih =>
    rw [List.pairwise_cons] at hl
    simp only [insertByLastUsed]
    split
    · next hlt =>
      rw [List.pairwise_cons]
      refine ⟨?_, List.pairwise_cons.mpr hl⟩
      intro z hz
      rcases List.mem_cons.mp hz with hz1 | hz1
      · subst hz1
        exact le_of_lt hlt
      · exact le_trans (hl.1 z hz1) (le_of_lt hlt)
    · next hge =>
      push_neg at hge
      rw [List.pairwise_cons]
      constructor
      · intro z hz
        have hz2 := (insertByLastUsed_perm x ys).mem_iff.mp hz
        rcases List.mem_cons.mp hz2 with hz1 | hz1
        · subst hz1
          exact hge
        · exact hl.1 z hz1
      · exact ih hl.2

theorem sortAux_pairwise (l : List (String × SessionEntry))
    (acc : List (String × SessionEntry))
    (hacc : acc.Pairwise (fun a b => b.2.lastUsed ≤ a.2.lastUsed)) :
    (l.foldl (fun acc x => insertByLastUsed x acc) acc).Pairwise
      (fun a b => b.2.lastUsed ≤ a.2.lastUsed) := by
  induction l generalizing acc with
  | nil => simpa using hacc
  | cons x xs ih =>
    simp only [List.foldl_cons]
    exact ih _ (insertByLastUsed_pairwise x acc hacc)

theorem sortByLastUsedDesc_pairwise (l : List (String × SessionEntry)) :
    (sortByLastUsedDesc l).Pairwise
      (fun a b => b.2.lastUsed ≤ a.2.lastUsed) := by
  exact sortAux_pairwise l [] (by simp)

theorem cleanupSelected_iff (act : Option String) (cutoff maxS : Int)
    (j : Nat) (t : String) (e : SessionEntry) :
    cleanupSelected act cutoff maxS j t e = true
      ↔ ((e.lastUsed < cutoff ∨ (j : Int) ≥ maxS) ∧ act ≠ some t) := by
  simp [cleanupSelected, Bool.and_eq_true, Bool.or_eq_true,
    decide_eq_true_eq, beq_iff_eq]

theorem handleCleanupCache_eq (args : CleanupArgs) (s : CacheState)
    (fs : FS) (now : Int) (hconf : args.confirmCleanup = true)
    (hdir : fs.existsPath args.cacheDir = true) :
    handleCleanupCache args s fs now
      = (ServerResult.ok "Cache Cleanup Complete",
         { s with
           topicAutoUpdateSettings :=
             (cleanupLoop s.activeTopic
               (now - args.cleanupAfterDays * 86400000) args.maxSessions
               (sortByLastUsedDesc
                 (loadSessionManifest fs args.cacheDir).activeSessions) 0
               (loadSessionManifest fs args.cacheDir,
                s.topicAutoUpdateSettings)).2 },
         saveSessionManifest fs args.cacheDir
           (cleanupLoop s.activeTopic
             (now - args.cleanupAfterDays * 86400000) args.maxSessions
             (sortByLastUsedDesc
               (loadSessionManifest fs args.cacheDir).activeSessions) 0
             (loadSessionManifest fs args.cacheDir,
              s.topicAutoUpdateSettings)).1) := by
  simp only [handleCleanupCache, hconf, hdir, Bool.not_true,
    Bool.false_eq_true, if_false]

/-- C3: confirmed cleanup on an existing base directory sorts the active
topics by `lastUsed` descending (a stable permutation, pairwise
descending); a topic is removed from the on-disk manifest and from the
per-topic auto-update map if and only if at its rank `j` in the sorted
list it is older than the cutoff or `j ≥ maxSessions` — unless it is the
currently active topic, which is never selected; and no file or directory
is deleted. -/
theorem handleCleanupCache_spec (args : CleanupArgs) (s : CacheState)
    (fs : FS) (now : Int) (hconf : args.confirmCleanup = true)
    (hdir : fs.existsPath args.cacheDir = true)
    (hnf : fs.failWrites.contains (manifestPath args.cacheDir) = false) :
    (sortByLastUsedDesc
        (loadSessionManifest fs args.cacheDir).activeSessions).Perm
        (loadSessionManifest fs args.cacheDir).activeSessions
      ∧ (sortByLastUsedDesc
          (loadSessionManifest fs args.cacheDir).activeSessions).Pairwise
          (fun a b => b.2.lastUsed ≤ a.2.lastUsed)
      ∧ (∀ t : String,
          hasKey (loadSessionManifest
              (handleCleanupCache args s fs now).2.2
              args.cacheDir).activeSessions t
            = (hasKey
                (loadSessionManifest fs args.cacheDir).activeSessions t
              && !anySelectedFrom s.activeTopic
                  (now - args.cleanupAfterDays * 86400000) args.maxSessions
                  t
                  (sortByLastUsedDesc (loadSessionManifest fs
                    args.cacheDir).activeSessions) 0))
      ∧ (∀ t : String,
          hasKey
              (handleCleanupCache args s fs now).2.1.topicAutoUpdateSettings
              t
            = (hasKey s.topicAutoUpdateSettings t
              && !anySelectedFrom s.activeTopic
                  (now - args.cleanupAfterDays * 86400000) args.maxSessions
                  t
                  (sortByLastUsedDesc (loadSessionManifest fs
                    args.cacheDir).activeSessions) 0))
      ∧ (∀ t : String,
          anySelectedFrom s.activeTopic
              (now - args.cleanupAfterDays * 86400000) args.maxSessions t
              (sortByLastUsedDesc (loadSessionManifest fs
                args.cacheDir).activeSessions) 0 = true
            ↔ ∃ j e,
                (sortByLastUsedDesc (loadSessionManifest fs
                  args.cacheDir).activeSessions).get? j = some (t, e)
                ∧ (e.lastUsed < now - args.cleanupAfterDays * 86400000
                    ∨ (j : Int) ≥ args.maxSessions)
                ∧ s.activeTopic ≠ some t)
      ∧ (∀ t : String, s.activeTopic = some t →
          anySelectedFrom s.activeTopic
              (now - args.cleanupAfterDays * 86400000) args.maxSessions t
              (sortByLastUsedDesc (loadSessionManifest fs
                args.cacheDir).activeSessions) 0 = false)
      ∧ (handleCleanupCache args s fs now).2.2.files = fs.files
      ∧ (handleCleanupCache args s fs now).2.2.dirs = fs.dirs := by
  have hred := handleCleanupCache_eq args s fs now hconf hdir
  refine ⟨sortByLastUsedDesc_perm _, sortByLastUsedDesc_pairwise _,
    ?_, ?_, ?_, ?_, ?_, ?_⟩
  · intro t
    simp only [hred]
    rw [loadSessionManifest_save _ _ _ hnf]
    exact cleanupLoop_active_hasKey _ _ _ _ _ _ _ _
  · intro t
    simp only [hred]
    exact cleanupLoop_settings_hasKey _ _ _ _ _ _ _ _
  · intro t
    rw [anySelectedFrom_iff]
    constructor
    · rintro ⟨j, e, hj, hs⟩
      rw [cleanupSelected_iff] at hs
      simp only [Nat.zero_add] at hs
      exact ⟨j, e, hj, hs.1, hs.2⟩
    · rintro ⟨j, e, hj, hs1, hs2⟩
      refine ⟨j, e, hj, ?_⟩
      rw [cleanupSelected_iff]
      simpa using ⟨hs1, hs2⟩
  · intro t hact
    exact anySelectedFrom_active _ _ _ _ hact _ _
  · simp only [hred]
    exact (saveSessionManifest_frame _ _ _).1
  · simp only [hred]
    exact (saveSessionManifest_frame _ _ _).2.1

theorem handleCleanupCache_spec_witness :
    hasKey (loadSessionManifest
        (handleCleanupCache
          { cacheDir := "base", cleanupAfterDays := 0, maxSessions := 10,
            confirmCleanup := true }
          initialCacheState
          { dirs := ["base"], files := [],
            manifests := [("base/session_manifest.json",
              ManifestFile.parsed
                { activeSessions :=
                    [("a", { createdAt := 0, lastUsed := 10,
                             projectName := "A",
                             autoCleanupAfterDays := none,
                             sessionOnly := false, archivedAt := none }),
                     ("b", { createdAt := 0, lastUsed := 3000,
                             projectName := "B",
                             autoCleanupAfterDays := none,
                             sessionOnly := false, archivedAt := none })]
                  archivedSessions := none
                  manifestVersion := "2.0.0" })]
            failWrites := [] } 3000).2.2 "base").activeSessions "a"
      = (hasKey (loadSessionManifest
          { dirs := ["base"], files := [],
            manifests := [("base/session_manifest.json",
              ManifestFile.parsed
                { activeSessions :=
                    [("a", { createdAt := 0, lastUsed := 10,
                             projectName := "A",
                             autoCleanupAfterDays := none,
                             sessionOnly := false, archivedAt := none }),
                     ("b", { createdAt := 0, lastUsed := 3000,
                             projectName := "B",
                             autoCleanupAfterDays := none,
                             sessionOnly := false, archivedAt := none })]
                  archivedSessions := none
                  manifestVersion := "2.0.0" })]
            failWrites := [] } "base").activeSessions "a"
        && !anySelectedFrom none (3000 - 0 * 86400000) 10 "a"
            (sortByLastUsedDesc (loadSessionManifest
              { dirs := ["base"], files := [],
                manifests := [("base/session_manifest.json",
                  ManifestFile.parsed
                    { activeSessions :=
                        [("a", { createdAt := 0, lastUsed := 10,
                                 projectName := "A",
                                 autoCleanupAfterDays := none,
                                 sessionOnly := false,
                                 archivedAt := none }),
                         ("b", { createdAt := 0, lastUsed := 3000,
                                 projectName := "B",
                                 autoCleanupAfterDays := none,
                                 sessionOnly := false,
                                 archivedAt := none })]
                      archivedSessions := none
                      manifestVersion := "2.0.0" })]
                failWrites := [] } "base").activeSessions) 0) := by
  have h := handleCleanupCache_spec
    { cacheDir := "base", cleanupAfterDays := 0, maxSessions := 10,
      confirmCleanup := true }
    initialCacheState
    { dirs := ["base"], files := [],
      manifests := [("base/session_manifest.json",
        ManifestFile.parsed
          { activeSessions :=
              [("a", { createdAt := 0, lastUsed := 10, projectName := "A",
                       autoCleanupAfterDays := none, sessionOnly := false,
                       archivedAt := none }),
               ("b", { createdAt := 0, lastUsed := 3000,
                       projectName := "B", autoCleanupAfterDays := none,
                       sessionOnly := false, archivedAt := none })]
            archivedSessions := none
            manifestVersion := "2.0.0" })]
      failWrites := [] } 3000 (by decide) (by decide) (by decide)
  exact h.2.2.1 "a"

theorem fsME_congr {fs1 fs2 : FS} (h : fs1.manifests = fs2.manifests) :
    fsManifestsExclusive fs1 = fsManifestsExclusive fs2 := by
  unfold fsManifestsExclusive
  rw [h]

theorem loadSessionManifest_congr {fs1 fs2 : FS} (b : String)
    (h : fs1.manifests = fs2.manifests) :
    loadSessionManifest fs1 b = loadSessionManifest fs2 b := by
  unfold loadSessionManifest
  rw [h]

theorem manifestExclusive_spec (m : SessionManifest)
    (hm : manifestExclusive m = true) (t : String) :
    ¬(hasKey m.activeSessions t = true
        ∧ hasKey (archivedOf m) t = true) := by
  rintro ⟨h1, h2⟩
  rw [hasKey_eq_isSome] at h1
  cases hl : lookupKey m.activeSessions t with
  | none => rw [hl] at h1; simp at h1
  | some e =>
    have hmem := lookupKey_mem hl
    unfold manifestExclusive at hm
    rw [List.all_eq_true] at hm
    have := hm _ hmem
    simp only [Bool.not_eq_true'] at this
    rw [this] at h2
    exact Bool.noConfusion h2

theorem initManifestUpdate_preserves (fs0 fs : FS) (b dpn : String)
    (topic : Option String) (so : Bool) (now : Int)
    (hman : fs.manifests = fs0.manifests)
    (hfs : fsManifestsExclusive fs0 = true)
    (hok : ∀ t, topic = some t →
        hasKey (archivedOf (loadSessionManifest fs0 b)) t = false) :
    fsManifestsExclusive (initManifestUpdate fs b topic dpn so now)
      = true := by
  unfold initManifestUpdate
  cases topic with
  | none => rw [fsME_congr hman]; exact hfs
  | some t =>
    simp only
    apply saveSessionManifest_exclusive
    · rw [fsME_congr hman]; exact hfs
    · rw [loadSessionManifest_congr b hman]
      apply exclusive_set_active _ _ _
        (loadSessionManifest_exclusive fs0 b hfs)
      exact hok t rfl

theorem initCacheBody_preserves (b : String) (pn topic : Option String)
    (so : Bool) (s : CacheState) (fs : FS) (now : Int)
    (hfs : fsManifestsExclusive fs = true)
    (hok : ∀ t, topic = some t →
        hasKey (archivedOf (loadSessionManifest fs b)) t = false) :
    fsManifestsExclusive (initCacheBody b pn topic so s fs now).2.2
      = true := by
  unfold initCacheBody
  simp only
  split
  · rw [fsME_congr ((writeSeq_frame _ _).2.1)]
    apply initManifestUpdate_preserves fs _ _ _ _ _ _ _ hfs hok
    split
    · rw [(createDir_frame _ _).2.1, (createDir_frame _ _).2.1]
    · rw [(createDir_frame _ _).2.1]
  · rw [fsME_congr ((writeSeq_frame _ _).2.1)]
    apply initManifestUpdate_preserves fs _ _ _ _ _ _ _ hfs hok
    split
    · rw [(createDir_frame _ _).2.1, (createDir_frame _ _).2.1]
    · rw [(createDir_frame _ _).2.1]

theorem handleInitCache_preserves (a : InitArgs) (s : CacheState) (fs : FS)
    (now : Int) (hfs : fsManifestsExclusive fs = true)
    (hok : ∀ t, truthy a.topic = some t →
        hasKey (archivedOf (loadSessionManifest fs a.cacheDir)) t
          = false) :
    fsManifestsExclusive (handleInitCache a s fs now).2.2 = true := by
  unfold handleInitCache
  simp only
  split
  · split
    · exact hfs
    · exact initCacheBody_preserves _ _ _ _ _ _ _ hfs hok
  · exact initCacheBody_preserves _ _ _ _ _ _ _ hfs hok

theorem touchManifest_preserves (fs : FS) (b : String)
    (tt : Option String) (now : Int)
    (hfs : fsManifestsExclusive fs = true) :
    fsManifestsExclusive (touchManifest fs b tt now) = true := by
  unfold touchManifest
  cases tt with
  | none => exact hfs
  | some t =>
    simp only
    cases hl : lookupKey (loadSessionManifest fs b).activeSessions t with
    | none => exact hfs
    | some info =>
      apply saveSessionManifest_exclusive _ _ _ hfs
      apply exclusive_set_active _ _ _
        (loadSessionManifest_exclusive fs b hfs)
      have hmem := lookupKey_mem hl
      have hexc := loadSessionManifest_exclusive fs b hfs
      unfold manifestExclusive at hexc
      rw [List.all_eq_true] at hexc
      have hthis := hexc _ hmem
      simpa using hthis

theorem handleUpdateCache_preserves (args : UpdateArgs) (s : CacheState)
    (fs : FS) (now : Int) (hfs : fsManifestsExclusive fs = true) :
    fsManifestsExclusive (handleUpdateCache args s fs now).2.2 = true := by
  unfold handleUpdateCache
  split
  · exact hfs
  · split
    · exact hfs
    · split
      · next e fsE hws =>
        have hframe : fsE.manifests = fs.manifests := by
          have := (writeSeq_frame (updateWrites args (updDir args s)
            (updTarget args s) (isoStr now)) fs).2.1
          rw [hws] at this
          exact this
        rw [fsME_congr hframe]
        exact hfs
      · next fs2 hws =>
        have hframe : fs2.manifests = fs.manifests := by
          have := (writeSeq_frame (updateWrites args (updDir args s)
            (updTarget args s) (isoStr now)) fs).2.1
          rw [hws] at this
          exact this
        apply touchManifest_preserves
        rw [fsME_congr hframe]
        exact hfs

theorem handleLoadCache_fs (args : LoadArgs) (s : CacheState) (fs : FS) :
    (handleLoadCache args s fs).2.2 = fs := by
  simp only [handleLoadCache]
  repeat' split
  all_goals rfl

theorem handleArchiveCache_preserves (args : ArchiveArgs) (s : CacheState)
    (fs : FS) (now : Int) (hfs : fsManifestsExclusive fs = true) :
    fsManifestsExclusive (handleArchiveCache args s fs now).2.2 = true := by
  simp only [handleArchiveCache]
  split
  · exact hfs
  · split
    · exact hfs
    · cases hl : lookupKey
          (loadSessionManifest fs args.cacheDir).activeSessions
          args.topic with
      | none => exact hfs
      | some e =>
        apply saveSessionManifest_exclusive _ _ _ hfs
        exact exclusive_archive_move _ _ _
          (loadSessionManifest_exclusive fs args.cacheDir hfs)

theorem handleCleanupCache_preserves (args : CleanupArgs) (s : CacheState)
    (fs : FS) (now : Int) (hfs : fsManifestsExclusive fs = true) :
    fsManifestsExclusive (handleCleanupCache args s fs now).2.2 = true := by
  unfold handleCleanupCache
  split
  · exact hfs
  · split
    · exact hfs
    · simp only
      apply saveSessionManifest_exclusive _ _ _ hfs
      exact cleanupLoop_exclusive _ _ _ _ _ _ _
        (loadSessionManifest_exclusive fs args.cacheDir hfs)

theorem stepOp_preserves (op : CacheOp) (σ : Sys)
    (hfs : fsManifestsExclusive σ.fs = true) (hok : opOk op σ = true) :
    fsManifestsExclusive (stepOp op σ).fs = true := by
  cases op with
  | opInit a now =>
    show fsManifestsExclusive (handleInitCache a σ.st σ.fs now).2.2 = true
    apply handleInitCache_preserves _ _ _ _ hfs
    intro t ht
    simp only [opOk] at hok
    rw [ht] at hok
    simpa using hok
  | opUpdate a now =>
    exact handleUpdateCache_preserves a σ.st σ.fs now hfs
  | opLoad a =>
    show fsManifestsExclusive (handleLoadCache a σ.st σ.fs).2.2 = true
    rw [handleLoadCache_fs]
    exact hfs
  | opAutoUpdate a => exact hfs
  | opStatus t => exact hfs
  | opTopics b => exact hfs
  | opArchive a now =>
    exact handleArchiveCache_preserves a σ.st σ.fs now hfs
  | opCleanup a now =>
    exact handleCleanupCache_preserves a σ.st σ.fs now hfs
  | opTick now => exact hfs

/-- C1 (amended): along any operation sequence in which `init` is never
applied to a topic currently present in `archivedSessions` of the manifest
it is about to load, every manifest file on disk keeps each topic in at
most one of `activeSessions` / `archivedSessions` (so each topic is
active XOR archived XOR absent). The original claim fails exactly on the
excluded case: re-running init on an archived topic leaves the topic in
both maps (see the counterexample). -/
theorem manifest_exclusive_invariant (ops : List CacheOp) (σ : Sys)
    (h0 : fsManifestsExclusive σ.fs = true)
    (hops : opsOk ops σ = true) :
    fsManifestsExclusive (runOps ops σ).fs = true
      ∧ ∀ b t, ¬(hasKey (loadSessionManifest (runOps ops σ).fs
            b).activeSessions t = true
          ∧ hasKey (archivedOf (loadSessionManifest (runOps ops σ).fs b))
              t = true) := by
  have hmain : ∀ τ : Sys, fsManifestsExclusive τ.fs = true →
      opsOk ops τ = true →
      fsManifestsExclusive (runOps ops τ).fs = true := by
    clear h0 hops
    induction ops with
    | nil => intro τ ht _; exact ht
    | cons op rest ih =>
      intro τ ht hops2
      simp only [opsOk, Bool.and_eq_true] at hops2
      exact ih (stepOp op τ) (stepOp_preserves op τ ht hops2.1) hops2.2
  have hm := hmain σ h0 hops
  refine ⟨hm, ?_⟩
  intro b t
  exact manifestExclusive_spec _ (loadSessionManifest_exclusive _ b hm) t

theorem manifest_exclusive_invariant_witness :
    fsManifestsExclusive
      (runOps
        [CacheOp.opInit
          { cacheDir := "b", projectName := none, topic := some "demo",
            confirmCreate := true, understoodGrowth := true,
            sessionOnly := false } 0,
         CacheOp.opArchive
          { topic := "demo", cacheDir := "b", confirmArchive := true } 1]
        { st := initialCacheState,
          fs := { dirs := [], files := [], manifests := [],
                  failWrites := [] } }).fs = true :=
  (manifest_exclusive_invariant
    [CacheOp.opInit
      { cacheDir := "b", projectName := none, topic := some "demo",
        confirmCreate := true, understoodGrowth := true,
        sessionOnly := false } 0,
     CacheOp.opArchive
      { topic := "demo", cacheDir := "b", confirmArchive := true } 1]
    { st := initialCacheState,
      fs := { dirs := [], files := [], manifests := [], failWrites := [] } }
    (by decide) (by decide)).1

/-- C1 counterexample: starting from an empty system, the reachable trace
init("demo") → archive("demo") → init("demo") leaves "demo" present in
BOTH `activeSessions` and `archivedSessions` of the stored manifest, so
the claimed XOR invariant (and in particular "running init on a topic
currently present in archivedSessions leaves it present in at most one of
the two maps") is false on the code. -/
theorem manifest_exclusive_counterexample :
    hasKey (loadSessionManifest
        (runOps
          [CacheOp.opInit
            { cacheDir := "b", projectName := none, topic := some "demo",
              confirmCreate := true, understoodGrowth := true,
              sessionOnly := false } 0,
           CacheOp.opArchive
            { topic := "demo", cacheDir := "b", confirmArchive := true } 1,
           CacheOp.opInit
            { cacheDir := "b", projectName := none, topic := some "demo",
              confirmCreate := true, understoodGrowth := true,
              sessionOnly := false } 2]
          { st := initialCacheState,
            fs := { dirs := [], files := [], manifests := [],
                    failWrites := [] } }).fs "b").activeSessions "demo"
        = true
      ∧ hasKey (archivedOf (loadSessionManifest
          (runOps
            [CacheOp.opInit
              { cacheDir := "b", projectName := none, topic := some "demo",
                confirmCreate := true, understoodGrowth := true,
                sessionOnly := false } 0,
             CacheOp.opArchive
              { topic := "demo", cacheDir := "b",
                confirmArchive := true } 1,
             CacheOp.opInit
              { cacheDir := "b", projectName := none, topic := some "demo",
                confirmCreate := true, understoodGrowth := true,
                sessionOnly := false } 2]
            { st := initialCacheState,
              fs := { dirs := [], files := [], manifests := [],
                      failWrites := [] } }).fs "b")) "demo" = true := by
  constructor
  · decide
  · decide
